import Mathlib

/-!
# The TCP connection state machine of `simulated-tcp`

A shallow embedding of `src/include/state.h` and `src/src/state.cc`:
the eleven per-state transition functions, the control block they mutate and
the `TcpStateManager` facade, followed by theorems about them.

Conventions of the embedding.

* `uint32_t` / `uint16_t` values are natural numbers; every place where the
  source computes `x + y` or `x++` on a `uint32_t` is written with an explicit
  `% 2 ^ 32`.
* A reaction (`std::function<void(TcpInternalInterface *)>`) is the ordered list
  of the calls it makes on the interface it is given.
* A reference parameter that the source mutates (`TcpControlBlock &`,
  `TcpHeader *`) is returned in its final value next to the result.
* `assert(header)` failing is the result `none`.
-/

namespace tcp_stack

/-- Modelled from the spec: the class `TcpHeader` is declared in `tcp-header.h`,
which is not among the sources. The spec lists the members the state machine
relies on: a 32-bit `SequenceNumber`, a 32-bit `AcknowledgementNumber`, a 16-bit
`Window`, the flag bits `Syn`, `Ack`, `Fin`, `Rst`, and `TcpLength()`, the
sequence-space length of the segment. `TcpLength` is kept as the value the
accessor returns; it does not depend on the `Ack` flag. -/
structure TcpHeader where
  SequenceNumber : Nat
  AcknowledgementNumber : Nat
  Window : Nat
  Syn : Bool
  Ack : Bool
  Fin : Bool
  Rst : Bool
  TcpLength : Nat
  deriving DecidableEq

/-- The `enum class State` of state.h, in declaration order. -/
inductive State where
  | kClosed
  | kListen
  | kSynRcvd
  | kSynSent
  | kEstab
  | kFinWait1
  | kCloseWait
  | kFinWait2
  | kClosing
  | kLastAck
  | kTimeWait
  deriving DecidableEq

/-- The `enum class Event` of state.h. -/
inductive Event where
  | kListen
  | kConnect
  | kSend
  | kClose
  deriving DecidableEq

/-- One call on `TcpInternalInterface`, with its arguments. -/
inductive SinkCall where
  | SendSyn (seq window : Nat)
  | SendSynAck (seq ack window : Nat)
  | SendAck (seq ack window : Nat)
  | SendFin (seq ack window : Nat)
  | RecvSyn (seq_recv window_recv : Nat)
  | RecvAck (seq_recv ack_recv window_recv : Nat)
  | RecvFin (seq_recv ack_recv window_recv : Nat)
  | Accept
  | Discard
  | SeqOutofRange (window : Nat)
  | SendRst (seq : Nat)
  | InvalidOperation
  | NewConnection
  deriving DecidableEq

/-- The `TcpState::ReactType` closure, as the calls it makes in order. -/
abbrev ReactType := List SinkCall

/-- The `struct TcpControlBlock` of state.h; `state` is the alternative the
variant member currently holds. -/
structure TcpControlBlock where
  snd_seq : Nat := 0
  snd_una : Nat := 0
  snd_nxt : Nat := 0
  snd_wnd : Nat := 0
  rcv_nxt : Nat := 0
  rcv_wnd : Nat := 0
  state : State := State.kClosed
  deriving DecidableEq

/-- What a header overload leaves behind: the returned pair
`(react, new_state)` and the control block after the call. -/
structure HeaderResult where
  react : ReactType
  state : State
  b : TcpControlBlock
  deriving DecidableEq

/-- What an event overload leaves behind: the returned pair, the control block
and the header behind the `TcpHeader *` after the call. -/
structure EventResult where
  react : ReactType
  state : State
  b : TcpControlBlock
  header : Option TcpHeader
  deriving DecidableEq

def IsAck (header : TcpHeader) : Bool :=
  header.Ack && !header.Syn && !header.Fin

def IsSyn (header : TcpHeader) : Bool :=
  header.Syn && !header.Ack && !header.Fin

def IsSynAck (header : TcpHeader) : Bool :=
  header.Syn && header.Ack && !header.Fin

def IsFin (header : TcpHeader) : Bool :=
  header.Fin && header.Ack && !header.Syn

def IsSeqInRange (header : TcpHeader) (b : TcpControlBlock) : Bool :=
  decide (header.SequenceNumber = b.rcv_nxt)

def IsAckInRange (header : TcpHeader) (b : TcpControlBlock) : Bool :=
  decide (header.AcknowledgementNumber ≥ b.snd_una) &&
    decide (header.AcknowledgementNumber ≤ b.snd_nxt)

def IsSeqAckInRange (header : TcpHeader) (b : TcpControlBlock) : Bool :=
  IsAckInRange header b && IsSeqInRange header b

/-- `Closed::operator()(Event, TcpHeader *, TcpControlBlock &)`. -/
def Closed.onEvent (event : Event) (header : Option TcpHeader)
    (b : TcpControlBlock) : EventResult :=
  if event = Event.kListen then
    { react := [], state := State.kListen,
      b := { b with state := State.kListen }, header := header }
  else if event = Event.kConnect then
    let b1 := { b with snd_seq := 10 }
    let b2 := { b1 with snd_una := (b1.snd_seq + 1) % 2 ^ 32 }
    let b3 := { b2 with snd_nxt := (b2.snd_seq + 1) % 2 ^ 32 }
    let b4 := { b3 with snd_wnd := 1024 }
    { react := [SinkCall.SendSyn b4.snd_seq b4.snd_wnd], state := State.kSynSent,
      b := { b4 with state := State.kSynSent }, header := header }
  else
    { react := [SinkCall.InvalidOperation], state := State.kClosed, b := b,
      header := header }

/-- `Closed::operator()(const TcpHeader &, TcpControlBlock &)`. -/
def Closed.onHeader (header : TcpHeader) (b : TcpControlBlock) : HeaderResult :=
  if IsSyn header then
    let b1 := { b with snd_seq := 10 }
    let b2 := { b1 with snd_una := (b1.snd_seq + 1) % 2 ^ 32 }
    let b3 := { b2 with snd_nxt := (b2.snd_seq + 1) % 2 ^ 32 }
    let b4 := { b3 with snd_wnd := 1024 }
    let b5 := { b4 with rcv_nxt := (header.SequenceNumber + 1) % 2 ^ 32 }
    let b6 := { b5 with rcv_wnd := header.Window }
    { react := [SinkCall.Accept, SinkCall.SendSynAck b6.snd_seq b6.rcv_nxt b6.snd_wnd],
      state := State.kSynRcvd, b := { b6 with state := State.kSynRcvd } }
  else
    { react := [SinkCall.Discard, SinkCall.SendRst header.AcknowledgementNumber],
      state := State.kClosed, b := b }

/-- `Listen::operator()(Event, TcpHeader *, TcpControlBlock &)`. -/
def Listen.onEvent (_event : Event) (header : Option TcpHeader)
    (b : TcpControlBlock) : EventResult :=
  { react := [SinkCall.InvalidOperation], state := State.kListen, b := b,
    header := header }

/-- `Listen::operator()(const TcpHeader &, TcpControlBlock &)`. -/
def Listen.onHeader (header : TcpHeader) (b : TcpControlBlock) : HeaderResult :=
  if header.Syn && !header.Ack then
    { react := [SinkCall.Accept, SinkCall.NewConnection], state := State.kListen,
      b := b }
  else
    { react := [SinkCall.Discard], state := State.kListen, b := b }

/-- `SynRcvd::operator()(Event, TcpHeader *, TcpControlBlock &)`. -/
def SynRcvd.onEvent (event : Event) (header : Option TcpHeader)
    (b : TcpControlBlock) : EventResult :=
  if event = Event.kClose then
    let seq := b.snd_nxt
    let b1 := { b with snd_nxt := (b.snd_nxt + 1) % 2 ^ 32 }
    { react := [SinkCall.SendFin seq b1.rcv_nxt b1.snd_wnd],
      state := State.kFinWait1, b := { b1 with state := State.kFinWait1 },
      header := header }
  else
    { react := [SinkCall.InvalidOperation], state := State.kSynRcvd, b := b,
      header := header }

/-- `SynRcvd::operator()(const TcpHeader &, TcpControlBlock &)`. -/
def SynRcvd.onHeader (header : TcpHeader) (b : TcpControlBlock) : HeaderResult :=
  if IsAck header && IsSeqAckInRange header b then
    let b1 := { b with snd_una := (header.AcknowledgementNumber + 1) % 2 ^ 32 }
    { react := [SinkCall.Accept], state := State.kEstab,
      b := { b1 with state := State.kEstab } }
  else
    { react := [SinkCall.Discard], state := State.kSynRcvd, b := b }

/-- `SynSent::operator()(Event, TcpHeader *, TcpControlBlock &)`. -/
def SynSent.onEvent (_event : Event) (header : Option TcpHeader)
    (b : TcpControlBlock) : EventResult :=
  { react := [SinkCall.InvalidOperation], state := State.kSynSent, b := b,
    header := header }

/-- `SynSent::operator()(const TcpHeader &, TcpControlBlock &)`. -/
def SynSent.onHeader (header : TcpHeader) (b : TcpControlBlock) : HeaderResult :=
  if IsSyn header then
    let b1 := { b with rcv_nxt := (header.SequenceNumber + 1) % 2 ^ 32 }
    let b2 := { b1 with rcv_wnd := header.Window }
    { react := [SinkCall.Accept, SinkCall.SendAck b2.snd_nxt b2.rcv_nxt b2.snd_wnd],
      state := State.kSynRcvd, b := { b2 with state := State.kSynRcvd } }
  else if IsSynAck header && IsAckInRange header b then
    let b1 := { b with rcv_nxt := (header.SequenceNumber + 1) % 2 ^ 32 }
    let b2 := { b1 with rcv_wnd := header.Window }
    { react := [SinkCall.Accept, SinkCall.SendAck b2.snd_nxt b2.rcv_nxt b2.snd_wnd],
      state := State.kEstab, b := { b2 with state := State.kEstab } }
  else
    { react := [SinkCall.Discard], state := State.kSynSent, b := b }

/-- `Estab::operator()(Event, TcpHeader *, TcpControlBlock &)`. The sum
`b.snd_nxt + header->TcpLength()` is evaluated in 32-bit unsigned arithmetic,
the type of `snd_nxt`. -/
def Estab.onEvent (event : Event) (header : Option TcpHeader)
    (b : TcpControlBlock) : Option EventResult :=
  if event = Event.kSend then
    match header with
    | none => none
    | some h =>
      if (b.snd_nxt + h.TcpLength) % 2 ^ 32 ≥ b.snd_wnd then
        some { react := [SinkCall.SeqOutofRange b.snd_wnd], state := State.kEstab,
               b := b, header := some h }
      else
        let h1 := { h with Ack := true }
        let h2 := { h1 with SequenceNumber := b.snd_nxt }
        let h3 := { h2 with AcknowledgementNumber := b.rcv_nxt }
        let b1 := { b with snd_nxt := (b.snd_nxt + h3.TcpLength) % 2 ^ 32 }
        some { react := [], state := State.kEstab, b := b1, header := some h3 }
  else if event = Event.kClose then
    let seq := b.snd_nxt
    let b1 := { b with snd_nxt := (b.snd_nxt + 1) % 2 ^ 32 }
    some { react := [SinkCall.SendFin seq b1.rcv_nxt b1.snd_wnd],
           state := State.kFinWait1, b := { b1 with state := State.kFinWait1 },
           header := header }
  else
    some { react := [SinkCall.InvalidOperation], state := State.kEstab, b := b,
           header := header }

/-- `Estab::operator()(const TcpHeader &, TcpControlBlock &)`. -/
def Estab.onHeader (header : TcpHeader) (b : TcpControlBlock) : HeaderResult :=
  if IsAck header && IsSeqAckInRange header b then
    let b1 := { b with snd_una := header.AcknowledgementNumber }
    let b2 := { b1 with rcv_nxt := (header.SequenceNumber + header.TcpLength) % 2 ^ 32 }
    { react := [SinkCall.Accept, SinkCall.SendAck b2.snd_nxt b2.rcv_nxt b2.snd_wnd],
      state := State.kEstab, b := b2 }
  else if IsFin header && IsSeqAckInRange header b then
    let b1 := { b with rcv_nxt := (b.rcv_nxt + 1) % 2 ^ 32 }
    { react := [SinkCall.Accept, SinkCall.SendAck b.snd_nxt b1.rcv_nxt b1.snd_wnd],
      state := State.kCloseWait, b := { b1 with state := State.kCloseWait } }
  else
    { react := [SinkCall.Discard], state := State.kEstab, b := b }

/-- `FinWait1::operator()(Event, TcpHeader *, TcpControlBlock &)`. -/
def FinWait1.onEvent (_event : Event) (header : Option TcpHeader)
    (b : TcpControlBlock) : EventResult :=
  { react := [SinkCall.InvalidOperation], state := State.kFinWait1, b := b,
    header := header }

/-- `FinWait1::operator()(const TcpHeader &, TcpControlBlock &)`. -/
def FinWait1.onHeader (header : TcpHeader) (b : TcpControlBlock) : HeaderResult :=
  if IsAck header && IsSeqAckInRange header b then
    if header.AcknowledgementNumber = b.snd_nxt then
      { react := [SinkCall.Accept], state := State.kFinWait2,
        b := { b with state := State.kFinWait2 } }
    else
      { react := [SinkCall.Accept], state := State.kFinWait1, b := b }
  else if IsFin header && IsSeqAckInRange header b then
    { react := [SinkCall.Accept, SinkCall.SendAck b.snd_nxt b.rcv_nxt b.snd_wnd],
      state := State.kClosing, b := { b with state := State.kClosing } }
  else
    { react := [SinkCall.Discard], state := State.kFinWait1, b := b }

/-- `CloseWait::operator()(Event, TcpHeader *, TcpControlBlock &)`. -/
def CloseWait.onEvent (event : Event) (header : Option TcpHeader)
    (b : TcpControlBlock) : EventResult :=
  if event = Event.kClose then
    let seq := b.snd_nxt
    let b1 := { b with snd_nxt := (b.snd_nxt + 1) % 2 ^ 32 }
    { react := [SinkCall.SendFin seq b1.rcv_nxt b1.snd_wnd],
      state := State.kLastAck, b := { b1 with state := State.kLastAck },
      header := header }
  else
    { react := [SinkCall.InvalidOperation], state := State.kCloseWait, b := b,
      header := header }

/-- `CloseWait::operator()(const TcpHeader &, TcpControlBlock &)`. -/
def CloseWait.onHeader (header : TcpHeader) (b : TcpControlBlock) : HeaderResult :=
  if IsAck header && IsSeqAckInRange header b then
    let b1 := { b with snd_una := header.AcknowledgementNumber }
    let b2 := { b1 with rcv_nxt := header.SequenceNumber }
    let b3 := { b2 with rcv_wnd := header.Window }
    { react := [SinkCall.Accept], state := State.kCloseWait, b := b3 }
  else
    { react := [SinkCall.Discard], state := State.kCloseWait, b := b }

/-- `FinWait2::operator()(Event, TcpHeader *, TcpControlBlock &)`. -/
def FinWait2.onEvent (_event : Event) (header : Option TcpHeader)
    (b : TcpControlBlock) : EventResult :=
  { react := [SinkCall.InvalidOperation], state := State.kFinWait2, b := b,
    header := header }

/-- `FinWait2::operator()(const TcpHeader &, TcpControlBlock &)`. -/
def FinWait2.onHeader (header : TcpHeader) (b : TcpControlBlock) : HeaderResult :=
  if IsFin header && IsSeqAckInRange header b then
    let b1 := { b with rcv_nxt := (header.SequenceNumber + 1) % 2 ^ 32 }
    let b2 := { b1 with rcv_wnd := header.Window }
    { react := [SinkCall.Accept, SinkCall.SendAck b2.snd_nxt b2.rcv_nxt b2.snd_wnd],
      state := State.kTimeWait, b := { b2 with state := State.kTimeWait } }
  else
    { react := [SinkCall.Discard], state := State.kFinWait2, b := b }

/-- `Closing::operator()(Event, TcpHeader *, TcpControlBlock &)`. -/
def Closing.onEvent (_event : Event) (header : Option TcpHeader)
    (b : TcpControlBlock) : EventResult :=
  { react := [SinkCall.InvalidOperation], state := State.kClosing, b := b,
    header := header }

/-- `Closing::operator()(const TcpHeader &, TcpControlBlock &)`. -/
def Closing.onHeader (header : TcpHeader) (b : TcpControlBlock) : HeaderResult :=
  if IsAck header && IsSeqAckInRange header b then
    if b.snd_nxt = header.AcknowledgementNumber then
      { react := [SinkCall.Accept], state := State.kTimeWait,
        b := { b with state := State.kTimeWait } }
    else
      { react := [SinkCall.Discard], state := State.kClosing, b := b }
  else
    { react := [SinkCall.Discard], state := State.kClosing, b := b }

/-- `LastAck::operator()(Event, TcpHeader *, TcpControlBlock &)`. -/
def LastAck.onEvent (_event : Event) (header : Option TcpHeader)
    (b : TcpControlBlock) : EventResult :=
  { react := [SinkCall.InvalidOperation], state := State.kLastAck, b := b,
    header := header }

/-- `LastAck::operator()(const TcpHeader &, TcpControlBlock &)`. -/
def LastAck.onHeader (header : TcpHeader) (b : TcpControlBlock) : HeaderResult :=
  if IsAck header && IsSeqAckInRange header b then
    if b.snd_nxt = header.AcknowledgementNumber then
      { react := [SinkCall.Accept], state := State.kClosed,
        b := { b with state := State.kClosed } }
    else
      { react := [SinkCall.Discard], state := State.kLastAck, b := b }
  else
    { react := [SinkCall.Discard], state := State.kLastAck, b := b }

/-- `TimeWait::operator()(Event, TcpHeader *, TcpControlBlock &)`. -/
def TimeWait.onEvent (_event : Event) (header : Option TcpHeader)
    (b : TcpControlBlock) : EventResult :=
  { react := [SinkCall.InvalidOperation], state := State.kTimeWait, b := b,
    header := header }

/-- `TimeWait::operator()(const TcpHeader &, TcpControlBlock &)`. -/
def TimeWait.onHeader (_header : TcpHeader) (b : TcpControlBlock) : HeaderResult :=
  { react := [SinkCall.Discard], state := State.kTimeWait, b := b }

/-- The virtual call `state_->operator()(event, header, block_)`: the overload
of the class the pointer addresses. -/
def TcpState.onEvent (s : State) (event : Event) (header : Option TcpHeader)
    (b : TcpControlBlock) : Option EventResult :=
  match s with
  | State.kClosed => some (Closed.onEvent event header b)
  | State.kListen => some (Listen.onEvent event header b)
  | State.kSynRcvd => some (SynRcvd.onEvent event header b)
  | State.kSynSent => some (SynSent.onEvent event header b)
  | State.kEstab => Estab.onEvent event header b
  | State.kFinWait1 => some (FinWait1.onEvent event header b)
  | State.kCloseWait => some (CloseWait.onEvent event header b)
  | State.kFinWait2 => some (FinWait2.onEvent event header b)
  | State.kClosing => some (Closing.onEvent event header b)
  | State.kLastAck => some (LastAck.onEvent event header b)
  | State.kTimeWait => some (TimeWait.onEvent event header b)

/-- The virtual call `state_->operator()(header, block_)`. -/
def TcpState.onHeader (s : State) (header : TcpHeader) (b : TcpControlBlock) :
    HeaderResult :=
  match s with
  | State.kClosed => Closed.onHeader header b
  | State.kListen => Listen.onHeader header b
  | State.kSynRcvd => SynRcvd.onHeader header b
  | State.kSynSent => SynSent.onHeader header b
  | State.kEstab => Estab.onHeader header b
  | State.kFinWait1 => FinWait1.onHeader header b
  | State.kCloseWait => CloseWait.onHeader header b
  | State.kFinWait2 => FinWait2.onHeader header b
  | State.kClosing => Closing.onHeader header b
  | State.kLastAck => LastAck.onHeader header b
  | State.kTimeWait => TimeWait.onHeader header b

/-- The `class TcpStateManager` of state.h: the control block and the class of
the object `state_` points to. A default-constructed manager has every numeric
field 0 and points to `Closed`. -/
structure TcpStateManager where
  block_ : TcpControlBlock := {}
  state_ : State := State.kClosed
  deriving DecidableEq

/-- `TcpStateManager::operator()(Event, TcpHeader *)`: the reaction, the manager
and the header after the call. -/
def TcpStateManager.onEvent (m : TcpStateManager) (event : Event)
    (header : Option TcpHeader) :
    Option (ReactType × TcpStateManager × Option TcpHeader) :=
  match TcpState.onEvent m.state_ event header m.block_ with
  | none => none
  | some r => some (r.react, { block_ := r.b, state_ := r.state }, r.header)

/-- `TcpStateManager::operator()(const TcpHeader &)`. -/
def TcpStateManager.onHeader (m : TcpStateManager) (header : TcpHeader) :
    ReactType × TcpStateManager :=
  let r := TcpState.onHeader m.state_ header m.block_
  (r.react, { block_ := r.b, state_ := r.state })

/-- `TcpStateManager::GetState`. -/
def TcpStateManager.GetState (m : TcpStateManager) : State := m.state_

/-- A stimulus of the machine: a local event with the header pointer it is
given, or an incoming header. -/
inductive Stimulus where
  | event (e : Event) (header : Option TcpHeader)
  | header (h : TcpHeader)
  deriving DecidableEq

/-- One step of the manager on a stimulus: the reaction and the manager after
the call (`none` when `assert(header)` fails). -/
def TcpStateManager.step (m : TcpStateManager) (x : Stimulus) :
    Option (ReactType × TcpStateManager) :=
  match x with
  | Stimulus.event e header =>
    match m.onEvent e header with
    | none => none
    | some r => some (r.1, r.2.1)
  | Stimulus.header h => some (m.onHeader h)

/-- The manager after a sequence of stimuli; a step on which the assertion
fails ends the run, later stimuli are not applied. -/
def TcpStateManager.run (m : TcpStateManager) : List Stimulus → TcpStateManager
  | [] => m
  | x :: xs =>
    match m.step x with
    | none => m
    | some r => TcpStateManager.run r.2 xs

/-- The segment a `Send*` call describes: `SendSyn(seq, wnd)` is
`{Syn, Seq, Window}`, `SendSynAck(seq, ack, wnd)` is
`{Syn, Ack, Seq, AckNum, Window}`, `SendAck(seq, ack, wnd)` is
`{Ack, Seq, AckNum, Window}`, `SendFin(seq, ack, wnd)` is
`{Fin, Ack, Seq, AckNum, Window}`. The sequence-space length `len` of the
segment is left to the caller. -/
def segmentOf (len : Nat) : SinkCall → Option TcpHeader
  | SinkCall.SendSyn seq wnd =>
    some { SequenceNumber := seq, AcknowledgementNumber := 0, Window := wnd,
           Syn := true, Ack := false, Fin := false, Rst := false, TcpLength := len }
  | SinkCall.SendSynAck seq ack wnd =>
    some { SequenceNumber := seq, AcknowledgementNumber := ack, Window := wnd,
           Syn := true, Ack := true, Fin := false, Rst := false, TcpLength := len }
  | SinkCall.SendAck seq ack wnd =>
    some { SequenceNumber := seq, AcknowledgementNumber := ack, Window := wnd,
           Syn := false, Ack := true, Fin := false, Rst := false, TcpLength := len }
  | SinkCall.SendFin seq ack wnd =>
    some { SequenceNumber := seq, AcknowledgementNumber := ack, Window := wnd,
           Syn := false, Ack := true, Fin := true, Rst := false, TcpLength := len }
  | _ => none

/-- The segments a reaction emits, in order. -/
def segmentsOf (len : Nat) (r : ReactType) : List TcpHeader :=
  r.filterMap (segmentOf len)

/-- Deliver to `m`, one after the other, the segments the reaction `r` emits;
the result is the reactions of `m` in order and `m` afterwards. -/
def feed (len : Nat) (r : ReactType) (m : TcpStateManager) :
    List ReactType × TcpStateManager :=
  (segmentsOf len r).foldl
    (fun acc h => (acc.1 ++ [(acc.2.onHeader h).1], (acc.2.onHeader h).2))
    ([], m)

/-- The record of a handshake between two managers: the three segments that
crossed, the reaction of the receiver to each, and both managers at the end. -/
structure HandshakeTrace where
  syn : TcpHeader
  synReact : ReactType
  synAck : TcpHeader
  synAckReact : ReactType
  ack : TcpHeader
  ackReact : ReactType
  A : TcpStateManager
  B : TcpStateManager

/-- The three exchanges of the handshake law: `A` (fresh) gets `Connect`, its SYN
goes to `B` (fresh), the SYN+ACK of `B` goes to `A`, the ACK of `A` goes to `B`.
`hdr` is the header pointer handed to `Connect`; `l1 l2 l3` are the lengths the
three segments report. `none` when a reaction does not emit exactly one
segment. -/
def handshake (hdr : Option TcpHeader) (l1 l2 l3 : Nat) : Option HandshakeTrace :=
  match ({} : TcpStateManager).onEvent Event.kConnect hdr with
  | none => none
  | some (r0, a1, _) =>
    match segmentsOf l1 r0 with
    | [syn] =>
      let (r1, b1) := ({} : TcpStateManager).onHeader syn
      match segmentsOf l2 r1 with
      | [synAck] =>
        let (r2, a2) := a1.onHeader synAck
        match segmentsOf l3 r2 with
        | [ack] =>
          let (r3, b2) := b1.onHeader ack
          some { syn := syn, synReact := r1, synAck := synAck, synAckReact := r2,
                 ack := ack, ackReact := r3, A := a2, B := b2 }
        | _ => none
      | _ => none
    | _ => none

/-- The teardown law after a handshake. `xIsA` chooses the peer `X` that calls
`Close` first; every emitted segment is delivered to the other peer `Y`, and
`Y` calls `Close` once it is in `CloseWait`. The result is `(X, Y)` when no
segment is left to deliver. -/
def teardown (xIsA : Bool) (len : Nat) : Option (TcpStateManager × TcpStateManager) :=
  match handshake none len len len with
  | none => none
  | some t =>
    let x0 := if xIsA then t.A else t.B
    let y0 := if xIsA then t.B else t.A
    match x0.onEvent Event.kClose none with
    | none => none
    | some (r1, x1, _) =>
      let (rs2, y1) := feed len r1 y0
      let (_, x2) := feed len rs2.flatten x1
      if y1.state_ = State.kCloseWait then
        match y1.onEvent Event.kClose none with
        | none => none
        | some (r4, y2, _) =>
          let (rs5, x3) := feed len r4 x2
          let (_, y3) := feed len rs5.flatten y2
          some (x3, y3)
      else
        some (x2, y1)

/-- A bare SYN as a peer sends it: `{Syn, Seq = 500, Window = 2048}`. -/
def synSegment : TcpHeader :=
  { SequenceNumber := 500, AcknowledgementNumber := 0, Window := 2048,
    Syn := true, Ack := false, Fin := false, Rst := false, TcpLength := 1 }

/-- The ACK that answers the SYN+ACK `(10, 501, 1024)`:
`{Ack, Seq = 501, AckNum = 11, Window = 2048}`. -/
def ackSegment : TcpHeader :=
  { SequenceNumber := 501, AcknowledgementNumber := 11, Window := 2048,
    Syn := false, Ack := true, Fin := false, Rst := false, TcpLength := 0 }

/-- The label of an edge of the transition diagram: one of the four local
events or one of the four header classes `<SYN>`, `<SYN+ACK>`, `<ACK>`,
`<FIN>`. -/
inductive StimulusKind where
  | listen
  | connect
  | send
  | close
  | syn
  | synAck
  | ack
  | fin
  deriving DecidableEq

/-- Whether a stimulus carries a label: an event carries its own, a header
carries `<SYN>` when `IsSyn` holds of it, and so on for `IsSynAck`, `IsAck`,
`IsFin`. -/
def Stimulus.hasKind : Stimulus → StimulusKind → Bool
  | Stimulus.event Event.kListen _, StimulusKind.listen => true
  | Stimulus.event Event.kConnect _, StimulusKind.connect => true
  | Stimulus.event Event.kSend _, StimulusKind.send => true
  | Stimulus.event Event.kClose _, StimulusKind.close => true
  | Stimulus.header h, StimulusKind.syn => IsSyn h
  | Stimulus.header h, StimulusKind.synAck => IsSynAck h
  | Stimulus.header h, StimulusKind.ack => IsAck h
  | Stimulus.header h, StimulusKind.fin => IsFin h
  | _, _ => false

/-- The fifteen state-changing edges of the transition diagram. -/
def edge : State → StimulusKind → State → Bool
  | State.kClosed, StimulusKind.listen, State.kListen => true
  | State.kClosed, StimulusKind.connect, State.kSynSent => true
  | State.kClosed, StimulusKind.syn, State.kSynRcvd => true
  | State.kSynSent, StimulusKind.syn, State.kSynRcvd => true
  | State.kSynSent, StimulusKind.synAck, State.kEstab => true
  | State.kSynRcvd, StimulusKind.ack, State.kEstab => true
  | State.kSynRcvd, StimulusKind.close, State.kFinWait1 => true
  | State.kEstab, StimulusKind.close, State.kFinWait1 => true
  | State.kEstab, StimulusKind.fin, State.kCloseWait => true
  | State.kFinWait1, StimulusKind.ack, State.kFinWait2 => true
  | State.kFinWait1, StimulusKind.fin, State.kClosing => true
  | State.kFinWait2, StimulusKind.fin, State.kTimeWait => true
  | State.kClosing, StimulusKind.ack, State.kTimeWait => true
  | State.kCloseWait, StimulusKind.close, State.kLastAck => true
  | State.kLastAck, StimulusKind.ack, State.kClosed => true
  | _, _, _ => false

/-- A stimulus carrying the label `k`: the event itself with no header, or a
header with the flags of the class and every number 0. -/
def StimulusKind.sample : StimulusKind → Stimulus
  | StimulusKind.listen => Stimulus.event Event.kListen none
  | StimulusKind.connect => Stimulus.event Event.kConnect none
  | StimulusKind.send => Stimulus.event Event.kSend none
  | StimulusKind.close => Stimulus.event Event.kClose none
  | StimulusKind.syn => Stimulus.header
      { SequenceNumber := 0, AcknowledgementNumber := 0, Window := 0,
        Syn := true, Ack := false, Fin := false, Rst := false, TcpLength := 0 }
  | StimulusKind.synAck => Stimulus.header
      { SequenceNumber := 0, AcknowledgementNumber := 0, Window := 0,
        Syn := true, Ack := true, Fin := false, Rst := false, TcpLength := 0 }
  | StimulusKind.ack => Stimulus.header
      { SequenceNumber := 0, AcknowledgementNumber := 0, Window := 0,
        Syn := false, Ack := true, Fin := false, Rst := false, TcpLength := 0 }
  | StimulusKind.fin => Stimulus.header
      { SequenceNumber := 0, AcknowledgementNumber := 0, Window := 0,
        Syn := false, Ack := true, Fin := true, Rst := false, TcpLength := 0 }

/-- The manager `Connect` leaves behind when applied to a fresh one. -/
def afterConnect : TcpStateManager :=
  { block_ := { snd_seq := 10, snd_una := 11, snd_nxt := 11, snd_wnd := 1024,
                rcv_nxt := 0, rcv_wnd := 0, state := State.kSynSent },
    state_ := State.kSynSent }

/-- The six pairs of a state and a local event for which the event overload of
the state has a branch of its own. -/
def validEvent : State → Event → Bool
  | State.kClosed, Event.kListen => true
  | State.kClosed, Event.kConnect => true
  | State.kSynRcvd, Event.kClose => true
  | State.kEstab, Event.kSend => true
  | State.kEstab, Event.kClose => true
  | State.kCloseWait, Event.kClose => true
  | _, _ => false

/-- The seven states whose header overload checks `IsSeqAckInRange` on every
accepting branch. -/
def checksSeqAck : State → Bool
  | State.kSynRcvd => true
  | State.kEstab => true
  | State.kFinWait1 => true
  | State.kFinWait2 => true
  | State.kCloseWait => true
  | State.kClosing => true
  | State.kLastAck => true
  | _ => false

/-- A manager in `Estab` right after an active open: `snd_nxt = 11`,
`snd_wnd = 1024`, `rcv_nxt = 501`. -/
def estabManager : TcpStateManager :=
  { block_ := { snd_seq := 10, snd_una := 11, snd_nxt := 11, snd_wnd := 1024,
                rcv_nxt := 501, rcv_wnd := 2048, state := State.kEstab },
    state_ := State.kEstab }

/-- A data segment handed to `Send` whose `TcpLength()` is 2000. -/
def bigSegment : TcpHeader :=
  { SequenceNumber := 0, AcknowledgementNumber := 0, Window := 0,
    Syn := false, Ack := false, Fin := false, Rst := false, TcpLength := 2000 }

/-- A data segment handed to `Send` whose `TcpLength()` is 100. -/
def smallSegment : TcpHeader :=
  { SequenceNumber := 0, AcknowledgementNumber := 0, Window := 7,
    Syn := false, Ack := false, Fin := false, Rst := false, TcpLength := 100 }

/-- An ACK whose sequence number, 0, is not the `rcv_nxt` of `estabManager`. -/
def staleAck : TcpHeader :=
  { SequenceNumber := 0, AcknowledgementNumber := 11, Window := 2048,
    Syn := false, Ack := true, Fin := false, Rst := false, TcpLength := 0 }

/-- A manager in `Closed` whose control block still holds the numbers of an
earlier connection. -/
def usedClosedManager : TcpStateManager :=
  { block_ := { snd_seq := 10, snd_una := 40, snd_nxt := 77, snd_wnd := 1024,
                rcv_nxt := 501, rcv_wnd := 2048, state := State.kClosed },
    state_ := State.kClosed }

/-- The SYN+ACK of the spec's scenario: `{SynAck, Seq = 500, Ack = 11,
Window = 2048}`. -/
def synAckSegment : TcpHeader :=
  { SequenceNumber := 500, AcknowledgementNumber := 11, Window := 2048,
    Syn := true, Ack := true, Fin := false, Rst := false, TcpLength := 1 }

/-- A SYN+ACK acknowledging 12, one past what `afterConnect` has sent. -/
def synAckBeyond : TcpHeader :=
  { SequenceNumber := 500, AcknowledgementNumber := 12, Window := 2048,
    Syn := true, Ack := true, Fin := false, Rst := false, TcpLength := 1 }

/-- The header of the spec's reset scenario: `{Ack, Seq = 100, Ack = 200}`. -/
def strayAck : TcpHeader :=
  { SequenceNumber := 100, AcknowledgementNumber := 200, Window := 0,
    Syn := false, Ack := true, Fin := false, Rst := false, TcpLength := 0 }

/-- Whether a sink call is `SendAck` or `SendSynAck`. -/
def isAckCall : SinkCall → Bool
  | SinkCall.SendAck _ _ _ => true
  | SinkCall.SendSynAck _ _ _ => true
  | _ => false

/-- In the reaction `r`, every `Accept` call stands before every `SendAck` or
`SendSynAck` call. -/
def AcceptFirst (r : ReactType) : Prop :=
  ∀ i j : Fin r.length, r.get i = SinkCall.Accept → isAckCall (r.get j) = true → i < j


/-- The manager a fresh one becomes after `synSegment` and then `ackSegment`:
a passive open that reached `Estab`. -/
def passiveEstabManager : TcpStateManager :=
  { block_ := { snd_seq := 10, snd_una := 12, snd_nxt := 11, snd_wnd := 1024,
                rcv_nxt := 501, rcv_wnd := 2048, state := State.kEstab },
    state_ := State.kEstab }

/-- The peer's acknowledgement of our FIN in the spec's close scenario:
`{Ack, Seq = 501, Ack = 12, Window = 2048}`. -/
def ackOfFin : TcpHeader :=
  { SequenceNumber := 501, AcknowledgementNumber := 12, Window := 2048,
    Syn := false, Ack := true, Fin := false, Rst := false, TcpLength := 0 }

/-- The peer's own FIN in the spec's close scenario:
`{Fin + Ack, Seq = 501, Ack = 12, Window = 2048}`. -/
def peerFin : TcpHeader :=
  { SequenceNumber := 501, AcknowledgementNumber := 12, Window := 2048,
    Syn := false, Ack := true, Fin := true, Rst := false, TcpLength := 1 }

/-- A manager in `Listen` (a fresh one after the `Listen` event). -/
def listenManager : TcpStateManager :=
  { block_ := { state := State.kListen }, state_ := State.kListen }

/-- The peer that answered a FIN and sent its own: in `LastAck` with
`snd_una = 11`, `snd_nxt = 12`, `rcv_nxt = 12`. -/
def lastAckManager : TcpStateManager :=
  { block_ := { snd_seq := 10, snd_una := 11, snd_nxt := 12, snd_wnd := 1024,
                rcv_nxt := 12, rcv_wnd := 1024, state := State.kLastAck },
    state_ := State.kLastAck }

/-- The ACK of the FIN of `lastAckManager`: `{Ack, Seq = 12, Ack = 12}`. -/
def finalAck : TcpHeader :=
  { SequenceNumber := 12, AcknowledgementNumber := 12, Window := 1024,
    Syn := false, Ack := true, Fin := false, Rst := false, TcpLength := 0 }

/-- The manager `lastAckManager` becomes on `finalAck`: back in `Closed`. -/
def closedAfterLastAck : TcpStateManager :=
  { block_ := { snd_seq := 10, snd_una := 11, snd_nxt := 12, snd_wnd := 1024,
                rcv_nxt := 12, rcv_wnd := 1024, state := State.kClosed },
    state_ := State.kClosed }

/-- A data segment for `estabManager`: `{Ack, Seq = 501, Ack = 11,
Window = 9999}` with `TcpLength() = 100`. -/
def dataSegment : TcpHeader :=
  { SequenceNumber := 501, AcknowledgementNumber := 11, Window := 9999,
    Syn := false, Ack := true, Fin := false, Rst := false, TcpLength := 100 }

/-- One end of an established connection: `snd_nxt = 11`, `rcv_nxt = 21`. -/
def peerA : TcpStateManager :=
  { block_ := { snd_seq := 10, snd_una := 11, snd_nxt := 11, snd_wnd := 1024,
                rcv_nxt := 21, rcv_wnd := 1024, state := State.kEstab },
    state_ := State.kEstab }

/-- The other end of the connection of `peerA`: `snd_nxt = 21`, `rcv_nxt = 11`. -/
def peerB : TcpStateManager :=
  { block_ := { snd_seq := 20, snd_una := 21, snd_nxt := 21, snd_wnd := 1024,
                rcv_nxt := 11, rcv_wnd := 1024, state := State.kEstab },
    state_ := State.kEstab }

/-- A manager in `CloseWait`: the peer's FIN has been answered, `rcv_nxt = 502`. -/
def closeWaitManager : TcpStateManager :=
  { block_ := { snd_seq := 10, snd_una := 11, snd_nxt := 40, snd_wnd := 1024,
                rcv_nxt := 502, rcv_wnd := 2048, state := State.kCloseWait },
    state_ := State.kCloseWait }

/-- A segment for `closeWaitManager` that carries data: `{Ack, Seq = 502,
Ack = 30, Window = 4096}` with `TcpLength() = 100`. -/
def lateData : TcpHeader :=
  { SequenceNumber := 502, AcknowledgementNumber := 30, Window := 4096,
    Syn := false, Ack := true, Fin := false, Rst := false, TcpLength := 100 }

/-- C1: the handshake law. Two fresh managers, `Connect` on A, then the SYN, the
SYN+ACK and the ACK delivered in turn: the three exchanges take place, both
managers end in `Estab`, and no receiver reacts to any of the three segments
with `Discard`. -/
theorem handshake_reaches_estab (hdr : Option TcpHeader) (l1 l2 l3 : Nat) :
    ∃ t, handshake hdr l1 l2 l3 = some t ∧
      IsSyn t.syn = true ∧ IsSynAck t.synAck = true ∧ IsAck t.ack = true ∧
      t.A.GetState = State.kEstab ∧ t.B.GetState = State.kEstab ∧
      SinkCall.Discard ∉ t.synReact ∧ SinkCall.Discard ∉ t.synAckReact ∧
      SinkCall.Discard ∉ t.ackReact := by
  refine ⟨_, rfl, rfl, rfl, rfl, rfl, rfl, ?_, ?_, ?_⟩
  · show SinkCall.Discard ∉ [SinkCall.Accept, SinkCall.SendSynAck 10 11 1024]
    simp
  · show SinkCall.Discard ∉ [SinkCall.Accept, SinkCall.SendAck 11 11 1024]
    simp
  · show SinkCall.Discard ∉ [SinkCall.Accept]
    simp

/-- C2, at the failing input (the peer that called `Connect` closes first): after
the handshake A calls `Close` and emits its FIN; B, in `Estab` with
`snd_una = 12 > snd_nxt = 11`, answers that FIN with `Discard` and stays as it
was, so the exchange ends with A in `FinWait1` and B in `Estab` instead of
`TimeWait` and `Closed`. -/
theorem teardown_stalls_when_connector_closes (len : Nat) :
    ∃ t r a1 fin, handshake none len len len = some t ∧
      t.B.block_.snd_una = 12 ∧ t.B.block_.snd_nxt = 11 ∧
      t.A.onEvent Event.kClose none = some (r, a1, none) ∧
      r = [SinkCall.SendFin 11 11 1024] ∧
      segmentsOf len r = [fin] ∧ IsFin fin = true ∧
      t.B.onHeader fin = ([SinkCall.Discard], t.B) ∧
      ∃ x y, teardown true len = some (x, y) ∧
        x.GetState = State.kFinWait1 ∧ y.GetState = State.kEstab :=
  ⟨_, _, _, _, rfl, rfl, rfl, rfl, rfl, rfl, rfl, rfl, _, _, rfl, rfl, rfl⟩

/-- The other half of the teardown law holds: when the peer that received the
SYN closes first, it ends in `TimeWait` and the other peer in `Closed`. -/
theorem teardown_completes_when_acceptor_closes (len : Nat) :
    ∃ x y, teardown false len = some (x, y) ∧
      x.GetState = State.kTimeWait ∧ y.GetState = State.kClosed :=
  ⟨_, _, rfl, rfl, rfl⟩

/-- C3, at the failing input: a fresh manager that receives a SYN and then the
ACK completing the handshake is in `Estab` with `snd_una = 12` and
`snd_nxt = 11`, so `snd_una ≤ snd_nxt` does not hold after the second step. -/
theorem snd_una_exceeds_snd_nxt_after_passive_open :
    (TcpStateManager.run {} [Stimulus.header synSegment,
        Stimulus.header ackSegment]).GetState = State.kEstab ∧
      (TcpStateManager.run {} [Stimulus.header synSegment,
        Stimulus.header ackSegment]).block_.snd_una = 12 ∧
      (TcpStateManager.run {} [Stimulus.header synSegment,
        Stimulus.header ackSegment]).block_.snd_nxt = 11 ∧
      ¬ ((TcpStateManager.run {} [Stimulus.header synSegment,
        Stimulus.header ackSegment]).block_.snd_una ≤
         (TcpStateManager.run {} [Stimulus.header synSegment,
        Stimulus.header ackSegment]).block_.snd_nxt) := by
  decide

/-- A header overload that returns another state than its own follows one of the
fifteen edges. -/
theorem header_change_is_edge (s : State) (h : TcpHeader) (b : TcpControlBlock)
    (hne : (TcpState.onHeader s h b).state ≠ s) :
    ∃ k, (Stimulus.header h).hasKind k = true ∧
      edge s k (TcpState.onHeader s h b).state = true := by
  cases s <;> simp only [TcpState.onHeader, Closed.onHeader, Listen.onHeader,
    SynRcvd.onHeader, SynSent.onHeader, Estab.onHeader, FinWait1.onHeader,
    CloseWait.onHeader, FinWait2.onHeader, Closing.onHeader, LastAck.onHeader,
    TimeWait.onHeader] at hne ⊢
  all_goals
    (try split_ifs at hne ⊢) <;>
    first
    | exact absurd rfl hne
    | exact ⟨StimulusKind.syn, by simp_all [Stimulus.hasKind], rfl⟩
    | exact ⟨StimulusKind.synAck, by simp_all [Stimulus.hasKind], rfl⟩
    | exact ⟨StimulusKind.ack, by simp_all [Stimulus.hasKind], rfl⟩
    | exact ⟨StimulusKind.fin, by simp_all [Stimulus.hasKind], rfl⟩

/-- An event overload that returns another state than its own follows one of the
fifteen edges. -/
theorem event_change_is_edge (s : State) (e : Event) (hd : Option TcpHeader)
    (b : TcpControlBlock) (res : EventResult)
    (hres : TcpState.onEvent s e hd b = some res) (hne : res.state ≠ s) :
    ∃ k, (Stimulus.event e hd).hasKind k = true ∧ edge s k res.state = true := by
  cases s <;> cases e <;>
    simp only [TcpState.onEvent, Closed.onEvent, Listen.onEvent, SynRcvd.onEvent,
    SynSent.onEvent, Estab.onEvent, FinWait1.onEvent, CloseWait.onEvent,
    FinWait2.onEvent, Closing.onEvent, LastAck.onEvent, TimeWait.onEvent,
    reduceCtorEq, if_true, if_false, Option.some.injEq] at hres
  all_goals
    first
    | (subst hres; first
        | exact absurd rfl hne
        | exact ⟨StimulusKind.listen, rfl, rfl⟩
        | exact ⟨StimulusKind.connect, rfl, rfl⟩
        | exact ⟨StimulusKind.close, rfl, rfl⟩)
    | (cases hd with
        | none => exact absurd hres (by simp)
        | some h =>
          simp only [] at hres
          split_ifs at hres <;>
            (simp only [Option.some.injEq] at hres; subst hres; exact absurd rfl hne))

/-- C4: whenever one step of the manager, from any state with any control block
and on any stimulus, ends in a state `t` other than the state `s` it started
in, the stimulus carries a label `k` such that `s -k-> t` is one of the fifteen
listed edges. -/
theorem state_change_is_listed_edge (m : TcpStateManager) (x : Stimulus)
    (r : ReactType) (m' : TcpStateManager) (hstep : m.step x = some (r, m'))
    (hne : m'.GetState ≠ m.GetState) :
    ∃ k, x.hasKind k = true ∧ edge m.GetState k m'.GetState = true := by
  cases x with
  | event e hd =>
    simp only [TcpStateManager.step, TcpStateManager.onEvent] at hstep
    cases hres : TcpState.onEvent m.state_ e hd m.block_ with
    | none => simp [hres] at hstep
    | some res =>
      simp only [hres, Option.some.injEq, Prod.mk.injEq] at hstep
      obtain ⟨-, rfl⟩ := hstep
      exact event_change_is_edge m.state_ e hd m.block_ res hres hne
  | header h =>
    simp only [TcpStateManager.step, TcpStateManager.onHeader, Option.some.injEq,
      Prod.mk.injEq] at hstep
    obtain ⟨-, rfl⟩ := hstep
    exact header_change_is_edge m.state_ h m.block_ hne

/-- C4 at a concrete input: `Connect` on a fresh manager changes the state, and
the change is the edge `Closed -Connect-> SynSent`. -/
theorem state_change_is_listed_edge_witness :
    (({} : TcpStateManager).step (Stimulus.event Event.kConnect none) =
        some ([SinkCall.SendSyn 10 1024], afterConnect)) ∧
      afterConnect.GetState ≠ ({} : TcpStateManager).GetState ∧
      ∃ k, (Stimulus.event Event.kConnect none).hasKind k = true ∧
        edge ({} : TcpStateManager).GetState k afterConnect.GetState = true :=
  ⟨rfl, by decide,
    state_change_is_listed_edge {} (Stimulus.event Event.kConnect none)
      [SinkCall.SendSyn 10 1024] afterConnect rfl (by decide)⟩

/-- Each of the fifteen edges is taken: from state `s` with a zeroed control
block, the sample stimulus of label `k` moves the manager to `t`. -/
theorem every_listed_edge_is_taken (s t : State) (k : StimulusKind) :
    edge s k t = true →
      k.sample.hasKind k = true ∧
      ∃ r m', ({ block_ := {}, state_ := s } : TcpStateManager).step k.sample =
          some (r, m') ∧ m'.GetState = t := by
  cases s <;> cases k <;> cases t <;>
    first
    | (intro h; exact absurd h (by decide))
    | exact fun _ => ⟨rfl, _, _, rfl, rfl⟩

/-- An event overload without a branch for the pair answers `InvalidOperation`
and hands back its own state, the control block and the header as they were. -/
theorem invalid_event_result (s : State) (e : Event) (hd : Option TcpHeader)
    (b : TcpControlBlock) (hv : validEvent s e = false) :
    TcpState.onEvent s e hd b =
      some { react := [SinkCall.InvalidOperation], state := s, b := b, header := hd } := by
  cases s <;> cases e <;> first
    | exact absurd hv (by decide)
    | rfl

/-- An event overload with a branch for the pair never answers with the single
call `InvalidOperation`. -/
theorem valid_event_result (s : State) (e : Event) (hd : Option TcpHeader)
    (b : TcpControlBlock) (res : EventResult) (hv : validEvent s e = true)
    (hres : TcpState.onEvent s e hd b = some res) :
    res.react ≠ [SinkCall.InvalidOperation] := by
  cases s <;> cases e <;> first
    | exact absurd hv (by decide)
    | (simp only [TcpState.onEvent, Closed.onEvent, SynRcvd.onEvent, Estab.onEvent,
        CloseWait.onEvent, reduceCtorEq, if_true, if_false, Option.some.injEq] at hres
       first
        | (subst hres; simp)
        | (cases hd with
            | none => exact absurd hres (by simp)
            | some h =>
              simp only [] at hres
              split_ifs at hres <;>
                (simp only [Option.some.injEq] at hres; subst hres; simp)))

/-- C5: for every state, control block, local event and header pointer, the
manager answers with exactly the one call `InvalidOperation` if and only if
the pair (state, event) is not one of (Closed, Listen), (Closed, Connect),
(SynRcvd, Close), (Estab, Send), (Estab, Close), (CloseWait, Close); and
whenever it answers so, the manager (state and every control-block field) and
the header are what they were before. -/
theorem invalid_operation_iff_not_valid (m : TcpStateManager) (e : Event)
    (hd : Option TcpHeader) :
    ((∃ m' hd', m.onEvent e hd = some ([SinkCall.InvalidOperation], m', hd')) ↔
        validEvent m.GetState e = false) ∧
      ∀ m' hd', m.onEvent e hd = some ([SinkCall.InvalidOperation], m', hd') →
        m'.GetState = m.GetState ∧ m'.block_ = m.block_ ∧ hd' = hd := by
  obtain ⟨b, s⟩ := m
  have key : validEvent s e = false →
      (⟨b, s⟩ : TcpStateManager).onEvent e hd =
        some ([SinkCall.InvalidOperation], ⟨b, s⟩, hd) := by
    intro hv
    simp [TcpStateManager.onEvent, invalid_event_result s e hd b hv]
  have key' : ∀ m' hd', (⟨b, s⟩ : TcpStateManager).onEvent e hd =
      some ([SinkCall.InvalidOperation], m', hd') → validEvent s e = false := by
    intro m' hd' hstep
    by_contra hv
    simp only [Bool.not_eq_false] at hv
    simp only [TcpStateManager.onEvent] at hstep
    cases hres : TcpState.onEvent s e hd b with
    | none => simp [hres] at hstep
    | some res =>
      simp only [hres, Option.some.injEq, Prod.mk.injEq] at hstep
      exact valid_event_result s e hd b res hv hres hstep.1
  refine ⟨⟨fun ⟨m', hd', h⟩ => key' m' hd' h, fun hv => ⟨_, _, key hv⟩⟩, ?_⟩
  intro m' hd' hstep
  have h2 := key (key' m' hd' hstep)
  rw [h2] at hstep
  simp only [Option.some.injEq, Prod.mk.injEq, true_and] at hstep
  obtain ⟨rfl, rfl⟩ := hstep
  exact ⟨rfl, rfl, rfl⟩

/-- `IsSeqAckInRange` fails exactly when the sequence number differs from
`rcv_nxt` or the acknowledgement number lies below `snd_una` or above
`snd_nxt`. -/
theorem IsSeqAckInRange_eq_false_iff (h : TcpHeader) (b : TcpControlBlock) :
    IsSeqAckInRange h b = false ↔
      (h.SequenceNumber ≠ b.rcv_nxt ∨ h.AcknowledgementNumber < b.snd_una ∨
        h.AcknowledgementNumber > b.snd_nxt) := by
  simp only [IsSeqAckInRange, IsAckInRange, IsSeqInRange, Bool.and_eq_false_iff,
    decide_eq_false_iff_not, not_le, ge_iff_le, gt_iff_lt]
  tauto

/-- C6: in each of SynRcvd, Estab, FinWait1, FinWait2, CloseWait, Closing and
LastAck, with any control block, a header that fails `IsSeqAckInRange` is
answered with exactly the one call `Discard`, and the manager (state and every
control-block field) is what it was before. -/
theorem out_of_range_header_discarded (m : TcpStateManager) (h : TcpHeader)
    (hs : checksSeqAck m.GetState = true)
    (hfail : IsSeqAckInRange h m.block_ = false) :
    m.onHeader h = ([SinkCall.Discard], m) := by
  obtain ⟨b, s⟩ := m
  simp only [TcpStateManager.GetState] at hs hfail
  cases s <;> first
    | exact absurd hs (by decide)
    | simp [TcpStateManager.onHeader, TcpState.onHeader, SynRcvd.onHeader,
        Estab.onHeader, FinWait1.onHeader, FinWait2.onHeader, CloseWait.onHeader,
        Closing.onHeader, LastAck.onHeader, hfail]

/-- C6 at a concrete input: in `Estab` with `rcv_nxt = 501`, an ACK carrying
sequence number 0 is discarded and nothing changes. -/
theorem out_of_range_header_discarded_witness :
    checksSeqAck estabManager.GetState = true ∧
      IsSeqAckInRange staleAck estabManager.block_ = false ∧
      estabManager.onHeader staleAck = ([SinkCall.Discard], estabManager) :=
  ⟨rfl, rfl, out_of_range_header_discarded estabManager staleAck rfl rfl⟩

/-- The out-of-window branch of `Estab::operator()(Event, ...)`. -/
theorem Estab_send_refused (b : TcpControlBlock) (h : TcpHeader)
    (hout : (b.snd_nxt + h.TcpLength) % 2 ^ 32 ≥ b.snd_wnd) :
    Estab.onEvent Event.kSend (some h) b =
      some { react := [SinkCall.SeqOutofRange b.snd_wnd], state := State.kEstab,
             b := b, header := some h } := by
  simp only [Estab.onEvent, if_true, if_pos hout]

/-- The stamping branch of `Estab::operator()(Event, ...)`. -/
theorem Estab_send_stamped (b : TcpControlBlock) (h : TcpHeader)
    (hin : (b.snd_nxt + h.TcpLength) % 2 ^ 32 < b.snd_wnd) :
    Estab.onEvent Event.kSend (some h) b =
      some { react := [], state := State.kEstab,
             b := { b with snd_nxt := (b.snd_nxt + h.TcpLength) % 2 ^ 32 },
             header := some { h with Ack := true, SequenceNumber := b.snd_nxt,
                                     AcknowledgementNumber := b.rcv_nxt } } := by
  simp only [Estab.onEvent, if_true, if_neg (not_le.mpr hin)]

/-- C7: in `Estab`, with any control block and any header behind the pointer
such that `snd_nxt + TcpLength() >= snd_wnd` (the sum taken, as the source
takes it, in 32-bit unsigned arithmetic), `Send` is answered with exactly
`SeqOutofRange(snd_wnd)`; the header, every control-block field and the state
are what they were before. -/
theorem send_out_of_window (m : TcpStateManager) (h : TcpHeader)
    (hs : m.GetState = State.kEstab)
    (hout : (m.block_.snd_nxt + h.TcpLength) % 2 ^ 32 ≥ m.block_.snd_wnd) :
    m.onEvent Event.kSend (some h) =
      some ([SinkCall.SeqOutofRange m.block_.snd_wnd], m, some h) := by
  obtain ⟨b, s⟩ := m
  simp only [TcpStateManager.GetState] at hs hout
  subst hs
  simp only [TcpStateManager.onEvent, TcpState.onEvent, Estab_send_refused b h hout]

/-- C7 at the input of the spec: `snd_nxt = 11`, `snd_wnd = 1024` and
`TcpLength() = 2000` give `SeqOutofRange(1024)` and change nothing. -/
theorem send_out_of_window_witness :
    estabManager.GetState = State.kEstab ∧
      (estabManager.block_.snd_nxt + bigSegment.TcpLength) % 2 ^ 32 ≥
        estabManager.block_.snd_wnd ∧
      estabManager.onEvent Event.kSend (some bigSegment) =
        some ([SinkCall.SeqOutofRange 1024], estabManager, some bigSegment) :=
  ⟨rfl, by decide, send_out_of_window estabManager bigSegment rfl (by decide)⟩

/-- When `snd_nxt + TcpLength()` does not overflow 32 bits the comparison of
C7 is the comparison of the plain sum. -/
theorem send_out_of_window_plain (m : TcpStateManager) (h : TcpHeader)
    (hs : m.GetState = State.kEstab)
    (hfit : m.block_.snd_nxt + h.TcpLength < 2 ^ 32)
    (hout : m.block_.snd_nxt + h.TcpLength ≥ m.block_.snd_wnd) :
    m.onEvent Event.kSend (some h) =
      some ([SinkCall.SeqOutofRange m.block_.snd_wnd], m, some h) := by
  obtain ⟨b, s⟩ := m
  simp only [TcpStateManager.GetState] at hs hout hfit
  subst hs
  have hmod : (b.snd_nxt + h.TcpLength) % 2 ^ 32 = b.snd_nxt + h.TcpLength :=
    Nat.mod_eq_of_lt hfit
  have hout' : (b.snd_nxt + h.TcpLength) % 2 ^ 32 ≥ b.snd_wnd := by rw [hmod]; exact hout
  simp only [TcpStateManager.onEvent, TcpState.onEvent, Estab_send_refused b h hout']

/-- C8: in `Estab`, with any control block and any header behind the pointer
such that `snd_nxt + TcpLength() < snd_wnd` (the sum taken in 32-bit unsigned
arithmetic), `Send` sets the header's `Ack` flag, writes the old `snd_nxt` as
its sequence number and `rcv_nxt` as its acknowledgement number, leaves the
other header fields alone, adds `TcpLength()` to `snd_nxt` (a 32-bit addition,
the plain sum whenever that fits in 32 bits), changes no other control-block
field, makes no sink call and stays in `Estab`. -/
theorem send_within_window (m : TcpStateManager) (h : TcpHeader)
    (hs : m.GetState = State.kEstab)
    (hin : (m.block_.snd_nxt + h.TcpLength) % 2 ^ 32 < m.block_.snd_wnd) :
    ∃ m' h', m.onEvent Event.kSend (some h) = some ([], m', some h') ∧
      h' = { h with Ack := true, SequenceNumber := m.block_.snd_nxt,
                    AcknowledgementNumber := m.block_.rcv_nxt } ∧
      m'.block_ = { m.block_ with
                    snd_nxt := (m.block_.snd_nxt + h.TcpLength) % 2 ^ 32 } ∧
      (m.block_.snd_nxt + h.TcpLength < 2 ^ 32 →
        m'.block_.snd_nxt = m.block_.snd_nxt + h.TcpLength) ∧
      m'.GetState = State.kEstab := by
  obtain ⟨b, s⟩ := m
  simp only [TcpStateManager.GetState] at hs hin
  subst hs
  refine ⟨{ block_ := { b with snd_nxt := (b.snd_nxt + h.TcpLength) % 2 ^ 32 },
              state_ := State.kEstab }, _, ?_, rfl, rfl, ?_, rfl⟩
  · simp only [TcpStateManager.onEvent, TcpState.onEvent, Estab_send_stamped b h hin]
  · intro hfit
    exact Nat.mod_eq_of_lt hfit

/-- C8 at a concrete input: with `snd_nxt = 11`, `rcv_nxt = 501`,
`snd_wnd = 1024`, a segment of length 100 is stamped `Ack`, `Seq = 11`,
`AckNum = 501` and `snd_nxt` becomes 111. -/
theorem send_within_window_witness :
    estabManager.GetState = State.kEstab ∧
      (estabManager.block_.snd_nxt + smallSegment.TcpLength) % 2 ^ 32 <
        estabManager.block_.snd_wnd ∧
      ∃ m' h', estabManager.onEvent Event.kSend (some smallSegment) =
          some ([], m', some h') ∧
        h' = { smallSegment with Ack := true, SequenceNumber := 11,
                                 AcknowledgementNumber := 501 } ∧
        m'.block_ = { estabManager.block_ with snd_nxt := 111 } ∧
        m'.GetState = State.kEstab :=
  ⟨rfl, by decide,
    (send_within_window estabManager smallSegment rfl (by decide)).elim
      fun m' hm' => hm'.elim fun h' hh' =>
        ⟨m', h', hh'.1, hh'.2.1, hh'.2.2.1, hh'.2.2.2.2⟩⟩

/-- C8 read with the plain sum: for a control block whose window is a 16-bit
value, `snd_nxt + TcpLength() < snd_wnd` leaves no room for overflow, and
`snd_nxt` grows by exactly `TcpLength()`. -/
theorem send_within_window_plain (m : TcpStateManager) (h : TcpHeader)
    (hs : m.GetState = State.kEstab) (hw : m.block_.snd_wnd < 2 ^ 16)
    (hin : m.block_.snd_nxt + h.TcpLength < m.block_.snd_wnd) :
    m.onEvent Event.kSend (some h) =
      some ([],
        { block_ := { m.block_ with snd_nxt := m.block_.snd_nxt + h.TcpLength },
          state_ := State.kEstab },
        some { h with Ack := true, SequenceNumber := m.block_.snd_nxt,
                      AcknowledgementNumber := m.block_.rcv_nxt }) := by
  obtain ⟨b, s⟩ := m
  simp only [TcpStateManager.GetState] at hs hin hw
  subst hs
  have hfit : b.snd_nxt + h.TcpLength < 2 ^ 32 := by omega
  have hmod : (b.snd_nxt + h.TcpLength) % 2 ^ 32 = b.snd_nxt + h.TcpLength :=
    Nat.mod_eq_of_lt hfit
  have hin' : (b.snd_nxt + h.TcpLength) % 2 ^ 32 < b.snd_wnd := by rw [hmod]; exact hin
  simp only [TcpStateManager.onEvent, TcpState.onEvent, Estab_send_stamped b h hin', hmod]

/-- C9: in `Closed`, whatever the control block held, `Connect` sets
`snd_seq = 10`, `snd_una = 11`, `snd_nxt = 11`, `snd_wnd = 1024`, leaves
`rcv_nxt` and `rcv_wnd` alone, is answered with exactly `SendSyn(10, 1024)` and
moves the manager to `SynSent`. -/
theorem connect_from_closed (m : TcpStateManager) (hd : Option TcpHeader)
    (hs : m.GetState = State.kClosed) :
    m.onEvent Event.kConnect hd =
      some ([SinkCall.SendSyn 10 1024],
        { block_ := { snd_seq := 10, snd_una := 11, snd_nxt := 11, snd_wnd := 1024,
                      rcv_nxt := m.block_.rcv_nxt, rcv_wnd := m.block_.rcv_wnd,
                      state := State.kSynSent },
          state_ := State.kSynSent },
        hd) := by
  obtain ⟨b, s⟩ := m
  simp only [TcpStateManager.GetState] at hs
  subst hs
  rfl

/-- C9 at a concrete input: a `Closed` manager with left-over numbers
(`snd_una = 40`, `snd_nxt = 77`, `rcv_nxt = 501`, `rcv_wnd = 2048`) is reset by
`Connect` on the send side only. -/
theorem connect_from_closed_witness :
    usedClosedManager.GetState = State.kClosed ∧
      usedClosedManager.onEvent Event.kConnect none =
        some ([SinkCall.SendSyn 10 1024],
          { block_ := { snd_seq := 10, snd_una := 11, snd_nxt := 11, snd_wnd := 1024,
                        rcv_nxt := 501, rcv_wnd := 2048, state := State.kSynSent },
            state_ := State.kSynSent },
          none) :=
  ⟨rfl, connect_from_closed usedClosedManager none rfl⟩

/-- C10: in `Closed`, whatever the control block held, a header with `IsSyn`
sets `snd_seq = 10`, `snd_una = snd_nxt = 11`, `snd_wnd = 1024`,
`rcv_nxt = (SequenceNumber + 1) mod 2^32` and `rcv_wnd = Window`, is answered
with exactly `Accept; SendSynAck(10, rcv_nxt, 1024)` in this order and moves
the manager to `SynRcvd`. -/
theorem syn_in_closed (m : TcpStateManager) (h : TcpHeader)
    (hs : m.GetState = State.kClosed) (hsyn : IsSyn h = true) :
    m.onHeader h =
      ([SinkCall.Accept, SinkCall.SendSynAck 10 ((h.SequenceNumber + 1) % 2 ^ 32) 1024],
        { block_ := { snd_seq := 10, snd_una := 11, snd_nxt := 11, snd_wnd := 1024,
                      rcv_nxt := (h.SequenceNumber + 1) % 2 ^ 32,
                      rcv_wnd := h.Window, state := State.kSynRcvd },
          state_ := State.kSynRcvd }) := by
  obtain ⟨b, s⟩ := m
  simp only [TcpStateManager.GetState] at hs
  subst hs
  simp only [TcpStateManager.onHeader, TcpState.onHeader, Closed.onHeader, hsyn, if_true]
  rfl

/-- C10 at the input of the spec: a fresh manager and `{Syn, Seq = 500,
Window = 2048}` give `Accept; SendSynAck(10, 501, 1024)`, `rcv_nxt = 501`,
`rcv_wnd = 2048` and `SynRcvd`. -/
theorem syn_in_closed_witness :
    ({} : TcpStateManager).GetState = State.kClosed ∧ IsSyn synSegment = true ∧
      ({} : TcpStateManager).onHeader synSegment =
        ([SinkCall.Accept, SinkCall.SendSynAck 10 501 1024],
          { block_ := { snd_seq := 10, snd_una := 11, snd_nxt := 11, snd_wnd := 1024,
                        rcv_nxt := 501, rcv_wnd := 2048, state := State.kSynRcvd },
            state_ := State.kSynRcvd }) :=
  ⟨rfl, rfl, syn_in_closed {} synSegment rfl rfl⟩

/-- A header with `IsSynAck` does not have `IsSyn`. -/
theorem IsSyn_eq_false_of_IsSynAck (h : TcpHeader) (hsa : IsSynAck h = true) :
    IsSyn h = false := by
  simp only [IsSynAck, Bool.and_eq_true] at hsa
  simp [IsSyn, hsa.1.2]

/-- `IsAckInRange` holds exactly when `snd_una ≤ AcknowledgementNumber ≤ snd_nxt`. -/
theorem IsAckInRange_eq_true_iff (h : TcpHeader) (b : TcpControlBlock) :
    IsAckInRange h b = true ↔
      (b.snd_una ≤ h.AcknowledgementNumber ∧ h.AcknowledgementNumber ≤ b.snd_nxt) := by
  simp [IsAckInRange]

/-- C11: in `SynSent`, with any control block, for a header with `IsSynAck`:
when `snd_una ≤ AcknowledgementNumber ≤ snd_nxt`, `rcv_nxt` becomes
`SequenceNumber + 1` (a 32-bit addition, the plain sum whenever that fits in
32 bits), `rcv_wnd` becomes `Window`, nothing else in the control block changes,
the reaction is exactly `Accept; SendAck(snd_nxt, rcv_nxt, snd_wnd)` and the
next state is `Estab`; when the acknowledgement number is outside that range
the reaction is exactly `Discard` and the manager is what it was. -/
theorem synack_in_synsent (m : TcpStateManager) (h : TcpHeader)
    (hs : m.GetState = State.kSynSent) (hsa : IsSynAck h = true) :
    ((m.block_.snd_una ≤ h.AcknowledgementNumber ∧
        h.AcknowledgementNumber ≤ m.block_.snd_nxt) →
      m.onHeader h =
        ([SinkCall.Accept,
          SinkCall.SendAck m.block_.snd_nxt ((h.SequenceNumber + 1) % 2 ^ 32)
            m.block_.snd_wnd],
         { block_ := { m.block_ with rcv_nxt := (h.SequenceNumber + 1) % 2 ^ 32,
                                     rcv_wnd := h.Window, state := State.kEstab },
           state_ := State.kEstab }) ∧
      (h.SequenceNumber + 1 < 2 ^ 32 →
        (m.onHeader h).2.block_.rcv_nxt = h.SequenceNumber + 1)) ∧
    (¬ (m.block_.snd_una ≤ h.AcknowledgementNumber ∧
        h.AcknowledgementNumber ≤ m.block_.snd_nxt) →
      m.onHeader h = ([SinkCall.Discard], m)) := by
  obtain ⟨b, s⟩ := m
  simp only [TcpStateManager.GetState] at hs
  subst hs
  have hsyn := IsSyn_eq_false_of_IsSynAck h hsa
  constructor
  · intro hr
    have hin : IsAckInRange h b = true := (IsAckInRange_eq_true_iff h b).mpr hr
    have hstep : (⟨b, State.kSynSent⟩ : TcpStateManager).onHeader h =
        ([SinkCall.Accept,
          SinkCall.SendAck b.snd_nxt ((h.SequenceNumber + 1) % 2 ^ 32) b.snd_wnd],
         { block_ := { b with rcv_nxt := (h.SequenceNumber + 1) % 2 ^ 32,
                              rcv_wnd := h.Window, state := State.kEstab },
           state_ := State.kEstab }) := by
      simp only [TcpStateManager.onHeader, TcpState.onHeader, SynSent.onHeader, hsyn,
        hsa, hin, Bool.and_self, if_true, Bool.false_eq_true, if_false]
    refine ⟨hstep, fun hfit => ?_⟩
    rw [hstep]
    exact Nat.mod_eq_of_lt hfit
  · intro hr
    have hout : IsAckInRange h b = false := by
      rw [← Bool.not_eq_true, IsAckInRange_eq_true_iff]
      exact hr
    simp only [TcpStateManager.onHeader, TcpState.onHeader, SynSent.onHeader, hsyn,
      hsa, hout, Bool.and_false, if_false, Bool.false_eq_true]

/-- C11 at the input of the spec: after `Connect`, `{SynAck, Seq = 500,
Ack = 11, Window = 2048}` gives `Accept; SendAck(11, 501, 1024)` and `Estab`;
the same header acknowledging 12 is discarded. -/
theorem synack_in_synsent_witness :
    afterConnect.GetState = State.kSynSent ∧ IsSynAck synAckSegment = true ∧
      afterConnect.onHeader synAckSegment =
        ([SinkCall.Accept, SinkCall.SendAck 11 501 1024],
         { block_ := { snd_seq := 10, snd_una := 11, snd_nxt := 11, snd_wnd := 1024,
                       rcv_nxt := 501, rcv_wnd := 2048, state := State.kEstab },
           state_ := State.kEstab }) ∧
      IsSynAck synAckBeyond = true ∧
      afterConnect.onHeader synAckBeyond = ([SinkCall.Discard], afterConnect) :=
  ⟨rfl, rfl,
    ((synack_in_synsent afterConnect synAckSegment rfl rfl).1 (by decide)).1,
    rfl,
    (synack_in_synsent afterConnect synAckBeyond rfl rfl).2 (by decide)⟩

/-- No event overload puts a `SendRst` call in its reaction. -/
theorem event_react_no_rst (s : State) (e : Event) (hd : Option TcpHeader)
    (b : TcpControlBlock) (res : EventResult)
    (hres : TcpState.onEvent s e hd b = some res) (seq : Nat) :
    SinkCall.SendRst seq ∉ res.react := by
  cases s <;> cases e <;>
    simp only [TcpState.onEvent, Closed.onEvent, Listen.onEvent, SynRcvd.onEvent,
    SynSent.onEvent, Estab.onEvent, FinWait1.onEvent, CloseWait.onEvent,
    FinWait2.onEvent, Closing.onEvent, LastAck.onEvent, TimeWait.onEvent,
    reduceCtorEq, if_true, if_false, Option.some.injEq] at hres
  all_goals
    first
    | (subst hres; simp)
    | (cases hd with
        | none => exact absurd hres (by simp)
        | some h =>
          simp only [] at hres
          split_ifs at hres <;>
            (simp only [Option.some.injEq] at hres; subst hres; simp))

/-- A header overload that calls `SendRst` is the one of `Closed`, on a header without `IsSyn`. -/
theorem header_react_rst (s : State) (h : TcpHeader) (b : TcpControlBlock) (seq : Nat)
    (hmem : SinkCall.SendRst seq ∈ (TcpState.onHeader s h b).react) :
    s = State.kClosed ∧ IsSyn h = false := by
  cases s <;> simp only [TcpState.onHeader, Closed.onHeader, Listen.onHeader,
    SynRcvd.onHeader, SynSent.onHeader, Estab.onHeader, FinWait1.onHeader,
    CloseWait.onHeader, FinWait2.onHeader, Closing.onHeader, LastAck.onHeader,
    TimeWait.onHeader] at hmem
  all_goals
    (try split_ifs at hmem) <;> simp_all

/-- The default branch of `Closed::operator()(const TcpHeader &, ...)`. -/
theorem Closed_non_syn (h : TcpHeader) (b : TcpControlBlock) (hsyn : IsSyn h = false) :
    Closed.onHeader h b =
      { react := [SinkCall.Discard, SinkCall.SendRst h.AcknowledgementNumber],
        state := State.kClosed, b := b } := by
  simp only [Closed.onHeader, hsyn, Bool.false_eq_true, if_false]

/-- C12: for every state, control block and stimulus, the reaction of a step
contains a `SendRst` call if and only if the stimulus is an incoming header,
the state is `Closed` and the header does not have `IsSyn`; and in that case
the reaction is exactly `Discard; SendRst(AcknowledgementNumber)` and the
manager (state and every control-block field) is what it was. -/
theorem rst_only_from_closed (m : TcpStateManager) (x : Stimulus) (r : ReactType)
    (m' : TcpStateManager) (hstep : m.step x = some (r, m')) :
    ((∃ seq, SinkCall.SendRst seq ∈ r) ↔
        ∃ h, x = Stimulus.header h ∧ m.GetState = State.kClosed ∧ IsSyn h = false) ∧
      ∀ h, x = Stimulus.header h → m.GetState = State.kClosed → IsSyn h = false →
        r = [SinkCall.Discard, SinkCall.SendRst h.AcknowledgementNumber] ∧ m' = m := by
  obtain ⟨b, s⟩ := m
  cases x with
  | event e hd =>
    simp only [TcpStateManager.step, TcpStateManager.onEvent] at hstep
    cases hres : TcpState.onEvent s e hd b with
    | none => simp [hres] at hstep
    | some res =>
      simp only [hres, Option.some.injEq, Prod.mk.injEq] at hstep
      obtain ⟨rfl, -⟩ := hstep
      refine ⟨⟨fun ⟨seq, hmem⟩ => absurd hmem (event_react_no_rst s e hd b res hres seq),
        fun ⟨h, hx, _⟩ => by cases hx⟩, fun h hx => by cases hx⟩
  | header h =>
    simp only [TcpStateManager.step, TcpStateManager.onHeader, Option.some.injEq,
      Prod.mk.injEq] at hstep
    obtain ⟨rfl, rfl⟩ := hstep
    have hclosed : ∀ h0, Stimulus.header h = Stimulus.header h0 →
        (⟨b, s⟩ : TcpStateManager).GetState = State.kClosed → IsSyn h0 = false →
        (TcpState.onHeader s h b).react =
            [SinkCall.Discard, SinkCall.SendRst h0.AcknowledgementNumber] ∧
          (⟨(TcpState.onHeader s h b).b, (TcpState.onHeader s h b).state⟩ :
            TcpStateManager) = ⟨b, s⟩ := by
      intro h0 hx hs hsyn
      cases hx
      simp only [TcpStateManager.GetState] at hs
      subst hs
      simp only [TcpState.onHeader, Closed_non_syn h b hsyn, and_self]
    refine ⟨⟨fun ⟨seq, hmem⟩ => ?_, fun ⟨h0, hx, hs, hsyn⟩ => ?_⟩, hclosed⟩
    · obtain ⟨hs, hsyn⟩ := header_react_rst s h b seq hmem
      exact ⟨h, rfl, hs, hsyn⟩
    · refine ⟨h0.AcknowledgementNumber, ?_⟩
      rw [(hclosed h0 hx hs hsyn).1]
      simp

/-- C12 at the input of the spec: a fresh manager given `{Ack, Seq = 100,
Ack = 200}` answers `Discard; SendRst(200)` and stays as it was. -/
theorem rst_only_from_closed_witness :
    ({} : TcpStateManager).step (Stimulus.header strayAck) =
        some ([SinkCall.Discard, SinkCall.SendRst 200], {}) ∧
      (∃ seq, SinkCall.SendRst seq ∈ [SinkCall.Discard, SinkCall.SendRst 200]) ∧
      ([SinkCall.Discard, SinkCall.SendRst 200] =
          [SinkCall.Discard, SinkCall.SendRst strayAck.AcknowledgementNumber] ∧
        ({} : TcpStateManager) = {}) :=
  ⟨rfl,
    (rst_only_from_closed {} (Stimulus.header strayAck)
      [SinkCall.Discard, SinkCall.SendRst 200] {} rfl).1.mpr ⟨strayAck, rfl, rfl, rfl⟩,
    (rst_only_from_closed {} (Stimulus.header strayAck)
      [SinkCall.Discard, SinkCall.SendRst 200] {} rfl).2 strayAck rfl rfl rfl⟩

/-- C13, at the failing input: a fresh manager that receives a SYN and then the
ACK completing the handshake is in `Estab` with `snd_una = 12`, `snd_nxt = 11`;
`Close` applied there is answered `SendFin(11, 501, 1024)` and leaves
`snd_una = 12`, `snd_nxt = 12`, so the sequence argument 11 lies below
`snd_una`. -/
theorem fin_seq_below_snd_una_after_passive_open :
    TcpStateManager.run {} [Stimulus.header synSegment, Stimulus.header ackSegment] =
        passiveEstabManager ∧
      passiveEstabManager.GetState ≠ State.kClosed ∧
      ∃ m', passiveEstabManager.step (Stimulus.event Event.kClose none) =
          some ([SinkCall.SendFin 11 501 1024], m') ∧
        m'.block_.snd_una = 12 ∧ m'.block_.snd_nxt = 12 ∧
        ¬ (m'.block_.snd_una ≤ 11 ∧ 11 ≤ m'.block_.snd_nxt) :=
  ⟨by decide, by decide, _, rfl, rfl, rfl, by decide⟩

/-- A reaction without `SendAck` and `SendSynAck` calls has nothing to order. -/
theorem acceptFirst_of_no_ack (r : ReactType) (h : ∀ c ∈ r, isAckCall c = false) :
    AcceptFirst r := by
  intro i j _ hj
  have := h (r.get j) (List.get_mem r j.1 j.2)
  rw [this] at hj
  exact absurd hj (by decide)

/-- A reaction of two calls that starts with its only `Accept` is in order. -/
theorem acceptFirst_pair (c : SinkCall) (hc : c ≠ SinkCall.Accept) :
    AcceptFirst [SinkCall.Accept, c] := by
  intro i j hi hj
  match i, j, hi, hj with
  | ⟨0, _⟩, ⟨0, _⟩, _, hj => exact absurd hj (by simp [isAckCall])
  | ⟨0, _⟩, ⟨1, _⟩, _, _ => exact Nat.zero_lt_one
  | ⟨1, _⟩, _, hi, _ => exact absurd hi hc

/-- The reaction of every header overload is in order. -/
theorem header_react_acceptFirst (s : State) (h : TcpHeader) (b : TcpControlBlock) :
    AcceptFirst (TcpState.onHeader s h b).react := by
  cases s <;> simp only [TcpState.onHeader, Closed.onHeader, Listen.onHeader,
    SynRcvd.onHeader, SynSent.onHeader, Estab.onHeader, FinWait1.onHeader,
    CloseWait.onHeader, FinWait2.onHeader, Closing.onHeader, LastAck.onHeader,
    TimeWait.onHeader]
  all_goals
    (try split_ifs) <;>
    first
    | exact acceptFirst_pair _ (by simp)
    | exact acceptFirst_of_no_ack _ (by simp [isAckCall])

/-- The reaction of every event overload is in order. -/
theorem event_react_acceptFirst (s : State) (e : Event) (hd : Option TcpHeader)
    (b : TcpControlBlock) (res : EventResult)
    (hres : TcpState.onEvent s e hd b = some res) :
    AcceptFirst res.react := by
  cases s <;> cases e <;>
    simp only [TcpState.onEvent, Closed.onEvent, Listen.onEvent, SynRcvd.onEvent,
    SynSent.onEvent, Estab.onEvent, FinWait1.onEvent, CloseWait.onEvent,
    FinWait2.onEvent, Closing.onEvent, LastAck.onEvent, TimeWait.onEvent,
    reduceCtorEq, if_true, if_false, Option.some.injEq] at hres
  all_goals
    first
    | (subst hres; exact acceptFirst_of_no_ack _ (by simp [isAckCall]))
    | (cases hd with
        | none => exact absurd hres (by simp)
        | some h =>
          simp only [] at hres
          split_ifs at hres <;>
            (simp only [Option.some.injEq] at hres; subst hres
             exact acceptFirst_of_no_ack _ (by simp [isAckCall])))

/-- C14: for every state, control block and stimulus, in the reaction of a step
every `Accept` call stands at an earlier position than every `SendAck` or
`SendSynAck` call: whenever position `i` holds `Accept` and position `j` holds
`SendAck` or `SendSynAck`, `i < j`. -/
theorem accept_precedes_ack (m : TcpStateManager) (x : Stimulus) (r : ReactType)
    (m' : TcpStateManager) (hstep : m.step x = some (r, m')) (i j : Fin r.length)
    (hi : r.get i = SinkCall.Accept) (hj : isAckCall (r.get j) = true) : i < j := by
  cases x with
  | event e hd =>
    simp only [TcpStateManager.step, TcpStateManager.onEvent] at hstep
    cases hres : TcpState.onEvent m.state_ e hd m.block_ with
    | none => simp [hres] at hstep
    | some res =>
      simp only [hres, Option.some.injEq, Prod.mk.injEq] at hstep
      obtain ⟨rfl, -⟩ := hstep
      exact event_react_acceptFirst m.state_ e hd m.block_ res hres i j hi hj
  | header h =>
    simp only [TcpStateManager.step, TcpStateManager.onHeader, Option.some.injEq,
      Prod.mk.injEq] at hstep
    obtain ⟨rfl, -⟩ := hstep
    exact header_react_acceptFirst m.state_ h m.block_ i j hi hj

/-- C14 at a concrete input: the SYN+ACK of the spec in `SynSent` is answered
`Accept; SendAck(11, 501, 1024)`, with `Accept` at position 0 and `SendAck` at
position 1. -/
theorem accept_precedes_ack_witness :
    afterConnect.step (Stimulus.header synAckSegment) =
        some ([SinkCall.Accept, SinkCall.SendAck 11 501 1024],
          estabManager) ∧
      [SinkCall.Accept, SinkCall.SendAck 11 501 1024].get ⟨0, by decide⟩ = SinkCall.Accept ∧
      isAckCall ([SinkCall.Accept, SinkCall.SendAck 11 501 1024].get ⟨1, by decide⟩) = true ∧
      ((⟨0, by decide⟩ : Fin [SinkCall.Accept, SinkCall.SendAck 11 501 1024].length) <
        ⟨1, by decide⟩) :=
  ⟨rfl, rfl, rfl,
    accept_precedes_ack afterConnect (Stimulus.header synAckSegment)
      [SinkCall.Accept, SinkCall.SendAck 11 501 1024]
      estabManager rfl ⟨0, by decide⟩ ⟨1, by decide⟩ rfl rfl⟩

/-- The `Close` branch of `Estab::operator()(Event, ...)`. -/
theorem Estab_close (b : TcpControlBlock) (hd : Option TcpHeader) :
    Estab.onEvent Event.kClose hd b =
      some { react := [SinkCall.SendFin b.snd_nxt b.rcv_nxt b.snd_wnd],
             state := State.kFinWait1,
             b := { b with snd_nxt := (b.snd_nxt + 1) % 2 ^ 32, state := State.kFinWait1 },
             header := hd } := by
  simp only [Estab.onEvent, reduceCtorEq, if_false, if_true]

/-- C15: graceful close, initiator side. In `Estab` with `snd_nxt = n`,
`rcv_nxt = r`, `snd_wnd = w`, `snd_una ≤ n + 1`, and `n + 1`, `r + 1` below
`2^32`: `Close` is answered exactly `SendFin(n, r, w)`, sets `snd_nxt = n + 1`
and moves to `FinWait1`; then a header `{Ack, Seq = r, AckNum = n + 1}` is
answered exactly `Accept` and moves to `FinWait2`; then a header
`{Fin, Ack, Seq = r, AckNum = n + 1, Window = W}` is answered exactly
`Accept; SendAck(n + 1, r + 1, w)`, sets `rcv_nxt = r + 1`, `rcv_wnd = W` and
moves to `TimeWait`. -/
theorem graceful_close_initiator (m : TcpStateManager) (hd : Option TcpHeader)
    (h1 h2 : TcpHeader)
    (hs : m.GetState = State.kEstab)
    (huna : m.block_.snd_una ≤ m.block_.snd_nxt + 1)
    (hn : m.block_.snd_nxt + 1 < 2 ^ 32) (hr : m.block_.rcv_nxt + 1 < 2 ^ 32)
    (h1ack : IsAck h1 = true) (h1seq : h1.SequenceNumber = m.block_.rcv_nxt)
    (h1num : h1.AcknowledgementNumber = m.block_.snd_nxt + 1)
    (h2fin : IsFin h2 = true) (h2seq : h2.SequenceNumber = m.block_.rcv_nxt)
    (h2num : h2.AcknowledgementNumber = m.block_.snd_nxt + 1) :
    ∃ m1 m2 m3,
      m.onEvent Event.kClose hd =
        some ([SinkCall.SendFin m.block_.snd_nxt m.block_.rcv_nxt m.block_.snd_wnd],
              m1, hd) ∧
      m1.block_ = { m.block_ with snd_nxt := m.block_.snd_nxt + 1,
                                  state := State.kFinWait1 } ∧
      m1.GetState = State.kFinWait1 ∧
      m1.onHeader h1 = ([SinkCall.Accept], m2) ∧
      m2.block_ = { m1.block_ with state := State.kFinWait2 } ∧
      m2.GetState = State.kFinWait2 ∧
      m2.onHeader h2 =
        ([SinkCall.Accept,
          SinkCall.SendAck (m.block_.snd_nxt + 1) (m.block_.rcv_nxt + 1)
            m.block_.snd_wnd], m3) ∧
      m3.block_ = { m2.block_ with rcv_nxt := m.block_.rcv_nxt + 1,
                                   rcv_wnd := h2.Window, state := State.kTimeWait } ∧
      m3.GetState = State.kTimeWait := by
  obtain ⟨b, s⟩ := m
  simp only [TcpStateManager.GetState] at hs
  simp only at huna hn hr h1seq h1num h2seq h2num
  subst hs
  have hmodn : (b.snd_nxt + 1) % 2 ^ 32 = b.snd_nxt + 1 := Nat.mod_eq_of_lt hn
  have hmodr : (h2.SequenceNumber + 1) % 2 ^ 32 = b.rcv_nxt + 1 := by
    rw [h2seq]; exact Nat.mod_eq_of_lt hr
  refine ⟨⟨{ b with snd_nxt := b.snd_nxt + 1, state := State.kFinWait1 }, State.kFinWait1⟩,
    ⟨{ b with snd_nxt := b.snd_nxt + 1, state := State.kFinWait2 }, State.kFinWait2⟩,
    ⟨{ b with snd_nxt := b.snd_nxt + 1, rcv_nxt := b.rcv_nxt + 1, rcv_wnd := h2.Window,
              state := State.kTimeWait }, State.kTimeWait⟩,
    ?_, rfl, rfl, ?_, rfl, rfl, ?_, rfl, rfl⟩
  · simp only [TcpStateManager.onEvent, TcpState.onEvent, Estab_close, hmodn]
  · have hr1 : IsSeqAckInRange h1
        { b with snd_nxt := b.snd_nxt + 1, state := State.kFinWait1 } = true := by
      simp [IsSeqAckInRange, IsAckInRange, IsSeqInRange, h1seq, h1num, huna]
    simp only [TcpStateManager.onHeader, TcpState.onHeader, FinWait1.onHeader, h1ack, hr1,
      Bool.and_self, if_true, h1num]
  · have hr2 : IsSeqAckInRange h2
        { b with snd_nxt := b.snd_nxt + 1, state := State.kFinWait2 } = true := by
      simp [IsSeqAckInRange, IsAckInRange, IsSeqInRange, h2seq, h2num, huna]
    simp only [TcpStateManager.onHeader, TcpState.onHeader, FinWait2.onHeader, h2fin, hr2,
      Bool.and_self, if_true, hmodr]

/-- C15 at the input of the spec: `n = 11`, `r = 501`, `w = 1024`, `W = 2048`. -/
theorem graceful_close_initiator_witness :
    estabManager.GetState = State.kEstab ∧
      estabManager.block_.snd_una ≤ estabManager.block_.snd_nxt + 1 ∧
      IsAck ackOfFin = true ∧ IsFin peerFin = true ∧
      ∃ m1 m2 m3,
        estabManager.onEvent Event.kClose none =
          some ([SinkCall.SendFin 11 501 1024], m1, none) ∧
        m1.block_.snd_nxt = 12 ∧ m1.GetState = State.kFinWait1 ∧
        m1.onHeader ackOfFin = ([SinkCall.Accept], m2) ∧
        m2.GetState = State.kFinWait2 ∧
        m2.onHeader peerFin = ([SinkCall.Accept, SinkCall.SendAck 12 502 1024], m3) ∧
        m3.block_.rcv_nxt = 502 ∧ m3.block_.rcv_wnd = 2048 ∧
        m3.GetState = State.kTimeWait := by
  obtain ⟨m1, m2, m3, h1, h2, h3, h4, h5, h6, h7, h8, h9⟩ :=
    graceful_close_initiator estabManager none ackOfFin peerFin rfl (by decide)
      (by decide) (by decide) rfl rfl rfl rfl rfl rfl
  refine ⟨rfl, by decide, rfl, rfl, m1, m2, m3, h1, ?_, h3, h4, h6, h7, ?_, ?_, h9⟩
  · rw [h2]; rfl
  · rw [h8]; rfl
  · rw [h8]; rfl

/-- A manager in `Listen` or `TimeWait` answers every stimulus without
changing. -/
theorem absorbing_step (m : TcpStateManager)
    (hs : m.GetState = State.kListen ∨ m.GetState = State.kTimeWait) (x : Stimulus) :
    ∃ r, m.step x = some (r, m) := by
  obtain ⟨b, s⟩ := m
  simp only [TcpStateManager.GetState] at hs
  rcases hs with rfl | rfl
  · cases x with
    | event e hd => exact ⟨_, rfl⟩
    | header h =>
      refine ⟨(Listen.onHeader h b).react, ?_⟩
      simp only [TcpStateManager.step, TcpStateManager.onHeader, TcpState.onHeader,
        Listen.onHeader]
      split_ifs <;> rfl
  · cases x with
    | event e hd => exact ⟨_, rfl⟩
    | header h => exact ⟨_, rfl⟩

/-- C16: `Listen` and `TimeWait` are absorbing. For a manager in either state,
every local event is answered `InvalidOperation` and every header leaves the
manager (state and every control-block field) as it was, so the manager after
any sequence of stimuli is the manager before it. In `Listen` a header with
`Syn` set and `Ack` clear is answered exactly `Accept; NewConnection` and every
other header exactly `Discard`; in `TimeWait` every header is answered exactly
`Discard`. -/
theorem listen_timewait_absorbing (m : TcpStateManager)
    (hs : m.GetState = State.kListen ∨ m.GetState = State.kTimeWait) :
    (∀ e hd, m.onEvent e hd = some ([SinkCall.InvalidOperation], m, hd)) ∧
      (∀ h, (m.onHeader h).2 = m) ∧
      (∀ xs, m.run xs = m) ∧
      (m.GetState = State.kListen → ∀ h,
        (m.onHeader h).1 =
          if h.Syn = true ∧ h.Ack = false then [SinkCall.Accept, SinkCall.NewConnection]
          else [SinkCall.Discard]) ∧
      (m.GetState = State.kTimeWait → ∀ h, (m.onHeader h).1 = [SinkCall.Discard]) := by
  refine ⟨?_, ?_, ?_, ?_, ?_⟩
  · intro e hd
    obtain ⟨b, s⟩ := m
    simp only [TcpStateManager.GetState] at hs
    rcases hs with rfl | rfl <;> rfl
  · intro h
    obtain ⟨r, hr⟩ := absorbing_step m hs (Stimulus.header h)
    simp only [TcpStateManager.step, Option.some.injEq] at hr
    rw [hr]
  · intro xs
    induction xs with
    | nil => rfl
    | cons x xs ih =>
      obtain ⟨r, hr⟩ := absorbing_step m hs x
      simp only [TcpStateManager.run, hr]
      exact ih
  · intro hl h
    obtain ⟨b, s⟩ := m
    simp only [TcpStateManager.GetState] at hl
    subst hl
    simp only [TcpStateManager.onHeader, TcpState.onHeader, Listen.onHeader]
    cases h.Syn <;> cases h.Ack <;> rfl
  · intro ht h
    obtain ⟨b, s⟩ := m
    simp only [TcpStateManager.GetState] at ht
    subst ht
    rfl

/-- C16 at a concrete input: a manager in `Listen` given a bare SYN answers
`Accept; NewConnection`, given `Close` answers `InvalidOperation`, and is
still the same manager after both. -/
theorem listen_timewait_absorbing_witness :
    (listenManager.GetState = State.kListen ∨ listenManager.GetState = State.kTimeWait) ∧
      listenManager.onEvent Event.kClose none =
        some ([SinkCall.InvalidOperation], listenManager, none) ∧
      listenManager.onHeader synSegment =
        ([SinkCall.Accept, SinkCall.NewConnection], listenManager) ∧
      listenManager.run [Stimulus.header synSegment, Stimulus.event Event.kClose none,
        Stimulus.event Event.kConnect none] = listenManager :=
  ⟨Or.inl rfl,
    (listen_timewait_absorbing listenManager (Or.inl rfl)).1 Event.kClose none,
    rfl,
    (listen_timewait_absorbing listenManager (Or.inl rfl)).2.2.1 _⟩

/-- The `IsSyn` branch of `Closed::operator()(const TcpHeader &, ...)`. -/
theorem Closed_syn (h : TcpHeader) (b : TcpControlBlock) (hsyn : IsSyn h = true) :
    Closed.onHeader h b =
      { react := [SinkCall.Accept,
                  SinkCall.SendSynAck 10 ((h.SequenceNumber + 1) % 2 ^ 32) 1024],
        state := State.kSynRcvd,
        b := { snd_seq := 10, snd_una := 11, snd_nxt := 11, snd_wnd := 1024,
               rcv_nxt := (h.SequenceNumber + 1) % 2 ^ 32, rcv_wnd := h.Window,
               state := State.kSynRcvd } } := by
  simp only [Closed.onHeader, hsyn, if_true]
  rfl

/-- C17 as stated fails: the peer that `finalAck` moved from `LastAck` back to
`Closed` (the state in which the teardown after a handshake leaves the peer
that closed second) answers the later segment `{Ack, Seq = 100, Ack = 200}`
with `Discard; SendRst(200)`, a reaction that holds a call other than
`Discard`. -/
theorem closed_after_teardown_sends_rst :
    (∃ x, teardown false 0 = some (x, closedAfterLastAck)) ∧
      lastAckManager.GetState = State.kLastAck ∧
      lastAckManager.onHeader finalAck = ([SinkCall.Accept], closedAfterLastAck) ∧
      closedAfterLastAck.GetState = State.kClosed ∧
      closedAfterLastAck.onHeader strayAck =
        ([SinkCall.Discard, SinkCall.SendRst 200], closedAfterLastAck) ∧
      ¬ (∀ c ∈ (closedAfterLastAck.onHeader strayAck).1, c = SinkCall.Discard) := by
  refine ⟨⟨_, rfl⟩, rfl, rfl, rfl, rfl, ?_⟩
  intro hall
  exact absurd (hall (SinkCall.SendRst 200) (by decide)) (by decide)

/-- C17 as amended: a peer in `TimeWait` answers every later header with exactly
`Discard` and does not change. A peer in `Closed`, moved there from `LastAck`
by the ACK of its FIN, answers every later header without `IsSyn` with exactly
`Discard; SendRst(AcknowledgementNumber)` and does not change, and answers a
later header with `IsSyn` with exactly `Accept; SendSynAck(10, Seq + 1, 1024)`,
moving to `SynRcvd`. -/
theorem finished_peer_reaction (m : TcpStateManager) (h : TcpHeader)
    (hfin : m.GetState = State.kTimeWait ∨
      ∃ (m0 : TcpStateManager) (a : TcpHeader), m0.GetState = State.kLastAck ∧ (m0.onHeader a).2 = m ∧
        m.GetState = State.kClosed) :
    (m.GetState = State.kTimeWait → m.onHeader h = ([SinkCall.Discard], m)) ∧
      (m.GetState = State.kClosed → IsSyn h = false →
        m.onHeader h =
          ([SinkCall.Discard, SinkCall.SendRst h.AcknowledgementNumber], m)) ∧
      (m.GetState = State.kClosed → IsSyn h = true →
        (m.onHeader h).1 =
            [SinkCall.Accept,
             SinkCall.SendSynAck 10 ((h.SequenceNumber + 1) % 2 ^ 32) 1024] ∧
          (m.onHeader h).2.GetState = State.kSynRcvd) := by
  obtain ⟨b, s⟩ := m
  have hstate : s = State.kTimeWait ∨ s = State.kClosed := by
    rcases hfin with ht | ⟨_, _, _, _, hc⟩
    · exact Or.inl ht
    · exact Or.inr hc
  simp only [TcpStateManager.GetState]
  refine ⟨?_, ?_, ?_⟩
  · intro ht
    subst ht
    rfl
  · intro hc hsyn
    subst hc
    simp only [TcpStateManager.onHeader, TcpState.onHeader, Closed_non_syn h b hsyn]
  · intro hc hsyn
    subst hc
    simp only [TcpStateManager.onHeader, TcpState.onHeader, Closed_syn h b hsyn, and_self]

/-- C17 as amended, at a concrete input: the peer that `finalAck` moved from
`LastAck` to `Closed` answers `{Ack, Seq = 100, Ack = 200}` with
`Discard; SendRst(200)` and stays as it was. -/
theorem finished_peer_reaction_witness :
    (closedAfterLastAck.GetState = State.kTimeWait ∨
      ∃ (m0 : TcpStateManager) (a : TcpHeader), m0.GetState = State.kLastAck ∧ (m0.onHeader a).2 = closedAfterLastAck ∧
        closedAfterLastAck.GetState = State.kClosed) ∧
      IsSyn strayAck = false ∧
      closedAfterLastAck.onHeader strayAck =
        ([SinkCall.Discard, SinkCall.SendRst 200], closedAfterLastAck) :=
  ⟨Or.inr ⟨lastAckManager, finalAck, rfl, rfl, rfl⟩, rfl,
    (finished_peer_reaction closedAfterLastAck strayAck
      (Or.inr ⟨lastAckManager, finalAck, rfl, rfl, rfl⟩)).2.1 rfl rfl⟩

/-- `IsSeqAckInRange` holds exactly when the sequence number is `rcv_nxt` and
`snd_una ≤ AcknowledgementNumber ≤ snd_nxt`. -/
theorem IsSeqAckInRange_eq_true_iff (h : TcpHeader) (b : TcpControlBlock) :
    IsSeqAckInRange h b = true ↔
      (h.SequenceNumber = b.rcv_nxt ∧ b.snd_una ≤ h.AcknowledgementNumber ∧
        h.AcknowledgementNumber ≤ b.snd_nxt) := by
  simp only [IsSeqAckInRange, IsAckInRange, IsSeqInRange, Bool.and_eq_true,
    decide_eq_true_eq, ge_iff_le]
  tauto

/-- C18: in `Estab`, with any control block, a header with `IsAck`,
`SequenceNumber = rcv_nxt` and `snd_una ≤ AcknowledgementNumber ≤ snd_nxt` sets
`snd_una = AcknowledgementNumber` and
`rcv_nxt = (SequenceNumber + TcpLength()) mod 2^32`, changes no other
control-block field (`rcv_wnd` included), is answered exactly
`Accept; SendAck(snd_nxt, new rcv_nxt, snd_wnd)` and stays in `Estab`. -/
theorem ack_in_estab (m : TcpStateManager) (h : TcpHeader)
    (hs : m.GetState = State.kEstab) (hack : IsAck h = true)
    (hseq : h.SequenceNumber = m.block_.rcv_nxt)
    (hlo : m.block_.snd_una ≤ h.AcknowledgementNumber)
    (hhi : h.AcknowledgementNumber ≤ m.block_.snd_nxt) :
    m.onHeader h =
      ([SinkCall.Accept,
        SinkCall.SendAck m.block_.snd_nxt
          ((h.SequenceNumber + h.TcpLength) % 2 ^ 32) m.block_.snd_wnd],
       { block_ := { m.block_ with
                     snd_una := h.AcknowledgementNumber,
                     rcv_nxt := (h.SequenceNumber + h.TcpLength) % 2 ^ 32 },
         state_ := State.kEstab }) := by
  obtain ⟨b, s⟩ := m
  simp only [TcpStateManager.GetState] at hs
  simp only at hseq hlo hhi
  subst hs
  have hr : IsSeqAckInRange h b = true :=
    (IsSeqAckInRange_eq_true_iff h b).mpr ⟨hseq, hlo, hhi⟩
  simp only [TcpStateManager.onHeader, TcpState.onHeader, Estab.onHeader, hack, hr,
    Bool.and_self, if_true]

/-- C18 at a concrete input: in `Estab` with `snd_una = snd_nxt = 11`,
`rcv_nxt = 501`, `rcv_wnd = 2048`, the segment `{Ack, Seq = 501, Ack = 11,
Window = 9999}` of length 100 gives `Accept; SendAck(11, 601, 1024)`,
`rcv_nxt = 601`, and `rcv_wnd` stays 2048. -/
theorem ack_in_estab_witness :
    estabManager.GetState = State.kEstab ∧ IsAck dataSegment = true ∧
      dataSegment.SequenceNumber = estabManager.block_.rcv_nxt ∧
      estabManager.block_.snd_una ≤ dataSegment.AcknowledgementNumber ∧
      dataSegment.AcknowledgementNumber ≤ estabManager.block_.snd_nxt ∧
      estabManager.onHeader dataSegment =
        ([SinkCall.Accept, SinkCall.SendAck 11 601 1024],
         { block_ := { snd_seq := 10, snd_una := 11, snd_nxt := 11, snd_wnd := 1024,
                       rcv_nxt := 601, rcv_wnd := 2048, state := State.kEstab },
           state_ := State.kEstab }) :=
  ⟨rfl, rfl, rfl, by decide, by decide,
    ack_in_estab estabManager dataSegment rfl rfl rfl (by decide) (by decide)⟩

/-- In `Estab` with `snd_nxt < snd_una` every header is answered `Discard` and
nothing changes. -/
theorem Estab_deaf (b : TcpControlBlock) (h : TcpHeader) (hlt : b.snd_nxt < b.snd_una) :
    Estab.onHeader h b = { react := [SinkCall.Discard], state := State.kEstab, b := b } := by
  have hr : IsSeqAckInRange h b = false := by
    rw [← Bool.not_eq_true, IsSeqAckInRange_eq_true_iff]
    intro ⟨_, h1, h2⟩
    omega
  simp only [Estab.onHeader, hr, Bool.and_false, Bool.false_eq_true, if_false]

/-- With `snd_una = snd_nxt = 11`, a header that takes `SynRcvd` to `Estab`
leaves `snd_una = 12`. -/
theorem SynRcvd_accept_after_open (b : TcpControlBlock) (h : TcpHeader)
    (hu : b.snd_una = 11) (hn : b.snd_nxt = 11)
    (hacc : (SynRcvd.onHeader h b).state = State.kEstab) :
    SynRcvd.onHeader h b =
      { react := [SinkCall.Accept], state := State.kEstab,
        b := { b with snd_una := 12, state := State.kEstab } } := by
  by_cases hc : (IsAck h && IsSeqAckInRange h b) = true
  · have hr := (IsSeqAckInRange_eq_true_iff h b).mp (by
      simp only [Bool.and_eq_true] at hc; exact hc.2)
    have ha : h.AcknowledgementNumber = 11 := by omega
    simp only [SynRcvd.onHeader, hc, if_true, ha]
    rfl
  · exfalso
    simp only [SynRcvd.onHeader, hc, Bool.false_eq_true, if_false] at hacc
    exact absurd hacc (by decide)

/-- A manager in `Estab` with `snd_nxt < snd_una` is the same after any sequence
of incoming headers. -/
theorem deaf_run (m : TcpStateManager) (hs : m.GetState = State.kEstab)
    (hlt : m.block_.snd_nxt < m.block_.snd_una) (hdrs : List TcpHeader) :
    m.run (hdrs.map Stimulus.header) = m := by
  obtain ⟨b, s⟩ := m
  simp only [TcpStateManager.GetState] at hs
  simp only at hlt
  subst hs
  induction hdrs with
  | nil => rfl
  | cons h3 hdrs ih =>
    simp only [List.map_cons, TcpStateManager.run, TcpStateManager.step,
      TcpStateManager.onHeader, TcpState.onHeader, Estab_deaf b h3 hlt]
    exact ih

/-- C19: a passively opened connection is deaf until it sends. A fresh manager
given any header with `IsSyn` is in `SynRcvd`; if the next header takes it to
`Estab`, the control block then has `snd_una = 12` and `snd_nxt = 11`, every
header given next is answered exactly `Discard` with the manager unchanged, and
so the manager stays the same under any sequence of incoming headers. -/
theorem passive_open_is_deaf (h1 h2 : TcpHeader) (hsyn : IsSyn h1 = true)
    (hacc : ((({} : TcpStateManager).onHeader h1).2.onHeader h2).2.GetState =
      State.kEstab) :
    (({} : TcpStateManager).onHeader h1).2.GetState = State.kSynRcvd ∧
      ((({} : TcpStateManager).onHeader h1).2.onHeader h2).2.block_.snd_una = 12 ∧
      ((({} : TcpStateManager).onHeader h1).2.onHeader h2).2.block_.snd_nxt = 11 ∧
      (∀ h3, ((({} : TcpStateManager).onHeader h1).2.onHeader h2).2.onHeader h3 =
        ([SinkCall.Discard], ((({} : TcpStateManager).onHeader h1).2.onHeader h2).2)) ∧
      ∀ hdrs : List TcpHeader,
        ((({} : TcpStateManager).onHeader h1).2.onHeader h2).2.run
            (hdrs.map Stimulus.header) =
          ((({} : TcpStateManager).onHeader h1).2.onHeader h2).2 := by
  have h1eq : (({} : TcpStateManager).onHeader h1).2 =
      { block_ := { snd_seq := 10, snd_una := 11, snd_nxt := 11, snd_wnd := 1024,
                    rcv_nxt := (h1.SequenceNumber + 1) % 2 ^ 32, rcv_wnd := h1.Window,
                    state := State.kSynRcvd },
        state_ := State.kSynRcvd } := by
    simp only [TcpStateManager.onHeader, TcpState.onHeader, Closed_syn h1 _ hsyn]
  rw [h1eq] at hacc ⊢
  have h2eq := SynRcvd_accept_after_open _ h2 rfl rfl hacc
  have hm2 : ((⟨{ snd_seq := 10, snd_una := 11, snd_nxt := 11, snd_wnd := 1024,
                  rcv_nxt := (h1.SequenceNumber + 1) % 2 ^ 32, rcv_wnd := h1.Window,
                  state := State.kSynRcvd }, State.kSynRcvd⟩ :
        TcpStateManager).onHeader h2).2 =
      ⟨{ snd_seq := 10, snd_una := 12, snd_nxt := 11, snd_wnd := 1024,
         rcv_nxt := (h1.SequenceNumber + 1) % 2 ^ 32, rcv_wnd := h1.Window,
         state := State.kEstab }, State.kEstab⟩ := by
    simp only [TcpStateManager.onHeader, TcpState.onHeader, h2eq]
  rw [hm2]
  have hlt : (11 : Nat) < 12 := by decide
  refine ⟨rfl, rfl, rfl, fun h3 => ?_, fun hdrs =>
    deaf_run ⟨{ snd_seq := 10, snd_una := 12, snd_nxt := 11, snd_wnd := 1024,
                rcv_nxt := (h1.SequenceNumber + 1) % 2 ^ 32, rcv_wnd := h1.Window,
                state := State.kEstab }, State.kEstab⟩ rfl hlt hdrs⟩
  simp only [TcpStateManager.onHeader, TcpState.onHeader]
  rw [Estab_deaf _ h3 hlt]

/-- C19 at a concrete input: a fresh manager given `{Syn, Seq = 500}` and then
`{Ack, Seq = 501, Ack = 11}` is in `Estab` with `snd_una = 12`, `snd_nxt = 11`,
and discards the data segment `{Ack, Seq = 501, Ack = 11}` that follows. -/
theorem passive_open_is_deaf_witness :
    IsSyn synSegment = true ∧
      ((({} : TcpStateManager).onHeader synSegment).2.onHeader ackSegment).2 =
        passiveEstabManager ∧
      passiveEstabManager.GetState = State.kEstab ∧
      passiveEstabManager.block_.snd_una = 12 ∧
      passiveEstabManager.block_.snd_nxt = 11 ∧
      passiveEstabManager.onHeader dataSegment =
        ([SinkCall.Discard], passiveEstabManager) :=
  ⟨rfl, rfl, rfl,
    (passive_open_is_deaf synSegment ackSegment rfl rfl).2.1,
    (passive_open_is_deaf synSegment ackSegment rfl rfl).2.2.1,
    (passive_open_is_deaf synSegment ackSegment rfl rfl).2.2.2.1 dataSegment⟩

/-- The `IsFin` branch of `FinWait1::operator()(const TcpHeader &, ...)`. -/
theorem FinWait1_fin (b : TcpControlBlock) (h : TcpHeader) (hfin : IsFin h = true)
    (hr : IsSeqAckInRange h b = true) :
    FinWait1.onHeader h b =
      { react := [SinkCall.Accept, SinkCall.SendAck b.snd_nxt b.rcv_nxt b.snd_wnd],
        state := State.kClosing, b := { b with state := State.kClosing } } := by
  have hack : IsAck h = false := by
    simp only [IsFin, Bool.and_eq_true] at hfin
    simp [IsAck, hfin.1.1]
  simp only [FinWait1.onHeader, hack, hfin, hr, Bool.false_and, Bool.and_self,
    Bool.false_eq_true, if_false, if_true]

/-- In `Closing` a header that fails `IsSeqAckInRange` is discarded. -/
theorem Closing_discard (b : TcpControlBlock) (h : TcpHeader)
    (hr : IsSeqAckInRange h b = false) :
    Closing.onHeader h b =
      { react := [SinkCall.Discard], state := State.kClosing, b := b } := by
  simp only [Closing.onHeader, hr, Bool.and_false, Bool.false_eq_true, if_false]

/-- C20: simultaneous close never completes. Two managers in `Estab` whose control
blocks fit each other (`A.snd_nxt = B.rcv_nxt`, `B.snd_nxt = A.rcv_nxt`,
`snd_una ≤ snd_nxt` on both, `snd_nxt + 1` below `2^32` on both) both call
`Close` and each emits its FIN; each then receives the FIN of the other and is
in `Closing`, having answered `Accept; SendAck(snd_nxt, rcv_nxt, snd_wnd)` with
`rcv_nxt` still the value from before the FIN; the ACK of each, delivered to
the other, is answered exactly `Discard` and leaves it unchanged, in
`Closing`. `l1 .. l4` are the lengths the four segments report. -/
theorem simultaneous_close_stalls (mA mB : TcpStateManager) (l1 l2 l3 l4 : Nat)
    (hsA : mA.GetState = State.kEstab) (hsB : mB.GetState = State.kEstab)
    (hAB : mA.block_.snd_nxt = mB.block_.rcv_nxt)
    (hBA : mB.block_.snd_nxt = mA.block_.rcv_nxt)
    (huA : mA.block_.snd_una ≤ mA.block_.snd_nxt)
    (huB : mB.block_.snd_una ≤ mB.block_.snd_nxt)
    (hnA : mA.block_.snd_nxt + 1 < 2 ^ 32) (hnB : mB.block_.snd_nxt + 1 < 2 ^ 32) :
    ∃ rA a1 rB b1 finA finB rA2 a2 rB2 b2 ackA ackB,
      mA.onEvent Event.kClose none = some (rA, a1, none) ∧
      mB.onEvent Event.kClose none = some (rB, b1, none) ∧
      segmentsOf l1 rA = [finA] ∧ segmentsOf l2 rB = [finB] ∧
      IsFin finA = true ∧ IsFin finB = true ∧
      a1.onHeader finB = (rA2, a2) ∧ b1.onHeader finA = (rB2, b2) ∧
      a2.GetState = State.kClosing ∧ b2.GetState = State.kClosing ∧
      rA2 = [SinkCall.Accept,
             SinkCall.SendAck a2.block_.snd_nxt a2.block_.rcv_nxt a2.block_.snd_wnd] ∧
      rB2 = [SinkCall.Accept,
             SinkCall.SendAck b2.block_.snd_nxt b2.block_.rcv_nxt b2.block_.snd_wnd] ∧
      a2.block_.rcv_nxt = mA.block_.rcv_nxt ∧ b2.block_.rcv_nxt = mB.block_.rcv_nxt ∧
      segmentsOf l3 rA2 = [ackA] ∧ segmentsOf l4 rB2 = [ackB] ∧
      b2.onHeader ackA = ([SinkCall.Discard], b2) ∧
      a2.onHeader ackB = ([SinkCall.Discard], a2) := by
  obtain ⟨bA, sA⟩ := mA
  obtain ⟨bB, sB⟩ := mB
  simp only [TcpStateManager.GetState] at hsA hsB
  simp only at hAB hBA huA huB hnA hnB
  subst hsA hsB
  have hmA : (bA.snd_nxt + 1) % 2 ^ 32 = bA.snd_nxt + 1 := Nat.mod_eq_of_lt hnA
  have hmB : (bB.snd_nxt + 1) % 2 ^ 32 = bB.snd_nxt + 1 := Nat.mod_eq_of_lt hnB
  refine ⟨[SinkCall.SendFin bA.snd_nxt bA.rcv_nxt bA.snd_wnd],
    ⟨{ bA with snd_nxt := bA.snd_nxt + 1, state := State.kFinWait1 }, State.kFinWait1⟩,
    [SinkCall.SendFin bB.snd_nxt bB.rcv_nxt bB.snd_wnd],
    ⟨{ bB with snd_nxt := bB.snd_nxt + 1, state := State.kFinWait1 }, State.kFinWait1⟩,
    _, _,
    [SinkCall.Accept, SinkCall.SendAck (bA.snd_nxt + 1) bA.rcv_nxt bA.snd_wnd],
    ⟨{ bA with snd_nxt := bA.snd_nxt + 1, state := State.kClosing }, State.kClosing⟩,
    [SinkCall.Accept, SinkCall.SendAck (bB.snd_nxt + 1) bB.rcv_nxt bB.snd_wnd],
    ⟨{ bB with snd_nxt := bB.snd_nxt + 1, state := State.kClosing }, State.kClosing⟩,
    _, _, ?_, ?_, rfl, rfl, rfl, rfl, ?_, ?_, rfl, rfl, rfl, rfl, rfl, rfl, rfl, rfl,
    ?_, ?_⟩
  · simp only [TcpStateManager.onEvent, TcpState.onEvent, Estab_close, hmA]
  · simp only [TcpStateManager.onEvent, TcpState.onEvent, Estab_close, hmB]
  · simp only [TcpStateManager.onHeader, TcpState.onHeader]
    rw [FinWait1_fin { bA with snd_nxt := bA.snd_nxt + 1, state := State.kFinWait1 }
      { SequenceNumber := bB.snd_nxt, AcknowledgementNumber := bB.rcv_nxt,
        Window := bB.snd_wnd, Syn := false, Ack := true, Fin := true, Rst := false,
        TcpLength := l2 } rfl
      ((IsSeqAckInRange_eq_true_iff _ _).mpr
        ⟨hBA, by show bA.snd_una ≤ bB.rcv_nxt; omega,
          by show bB.rcv_nxt ≤ bA.snd_nxt + 1; omega⟩)]
  · simp only [TcpStateManager.onHeader, TcpState.onHeader]
    rw [FinWait1_fin { bB with snd_nxt := bB.snd_nxt + 1, state := State.kFinWait1 }
      { SequenceNumber := bA.snd_nxt, AcknowledgementNumber := bA.rcv_nxt,
        Window := bA.snd_wnd, Syn := false, Ack := true, Fin := true, Rst := false,
        TcpLength := l1 } rfl
      ((IsSeqAckInRange_eq_true_iff _ _).mpr
        ⟨hAB, by show bB.snd_una ≤ bA.rcv_nxt; omega,
          by show bA.rcv_nxt ≤ bB.snd_nxt + 1; omega⟩)]
  · simp only [TcpStateManager.onHeader, TcpState.onHeader]
    rw [Closing_discard { bB with snd_nxt := bB.snd_nxt + 1, state := State.kClosing }
      { SequenceNumber := bA.snd_nxt + 1, AcknowledgementNumber := bA.rcv_nxt,
        Window := bA.snd_wnd, Syn := false, Ack := true, Fin := false, Rst := false,
        TcpLength := l3 }
      ((IsSeqAckInRange_eq_false_iff _ _).mpr
        (Or.inl (by show bA.snd_nxt + 1 ≠ bB.rcv_nxt; omega)))]
  · simp only [TcpStateManager.onHeader, TcpState.onHeader]
    rw [Closing_discard { bA with snd_nxt := bA.snd_nxt + 1, state := State.kClosing }
      { SequenceNumber := bB.snd_nxt + 1, AcknowledgementNumber := bB.rcv_nxt,
        Window := bB.snd_wnd, Syn := false, Ack := true, Fin := false, Rst := false,
        TcpLength := l4 }
      ((IsSeqAckInRange_eq_false_iff _ _).mpr
        (Or.inl (by show bB.snd_nxt + 1 ≠ bA.rcv_nxt; omega)))]

/-- C20 at a concrete input: `peerA` (`snd_nxt = 11`, `rcv_nxt = 21`) and `peerB`
(`snd_nxt = 21`, `rcv_nxt = 11`) close at the same time; each ends in
`Closing` and discards the ACK of the other. -/
theorem simultaneous_close_stalls_witness :
    peerA.GetState = State.kEstab ∧ peerB.GetState = State.kEstab ∧
      peerA.block_.snd_nxt = peerB.block_.rcv_nxt ∧
      peerB.block_.snd_nxt = peerA.block_.rcv_nxt ∧
      peerA.block_.snd_una ≤ peerA.block_.snd_nxt ∧
      peerB.block_.snd_una ≤ peerB.block_.snd_nxt ∧
      peerA.block_.snd_nxt + 1 < 2 ^ 32 ∧ peerB.block_.snd_nxt + 1 < 2 ^ 32 ∧
      ∃ rA a1 rB b1 finA finB rA2 a2 rB2 b2 ackA ackB,
        peerA.onEvent Event.kClose none = some (rA, a1, none) ∧
        peerB.onEvent Event.kClose none = some (rB, b1, none) ∧
        segmentsOf 1 rA = [finA] ∧ segmentsOf 1 rB = [finB] ∧
        IsFin finA = true ∧ IsFin finB = true ∧
        a1.onHeader finB = (rA2, a2) ∧ b1.onHeader finA = (rB2, b2) ∧
        a2.GetState = State.kClosing ∧ b2.GetState = State.kClosing ∧
        rA2 = [SinkCall.Accept,
               SinkCall.SendAck a2.block_.snd_nxt a2.block_.rcv_nxt a2.block_.snd_wnd] ∧
        rB2 = [SinkCall.Accept,
               SinkCall.SendAck b2.block_.snd_nxt b2.block_.rcv_nxt b2.block_.snd_wnd] ∧
        a2.block_.rcv_nxt = 21 ∧ b2.block_.rcv_nxt = 11 ∧
        segmentsOf 0 rA2 = [ackA] ∧ segmentsOf 0 rB2 = [ackB] ∧
        b2.onHeader ackA = ([SinkCall.Discard], b2) ∧
        a2.onHeader ackB = ([SinkCall.Discard], a2) :=
  ⟨rfl, rfl, rfl, rfl, by decide, by decide, by decide, by decide,
    simultaneous_close_stalls peerA peerB 1 1 0 0 rfl rfl rfl rfl (by decide)
      (by decide) (by decide) (by decide)⟩

/-- C22: in `CloseWait`, with any control block, a header that is accepted
(`IsAck` and `IsSeqAckInRange`) leaves `rcv_nxt` at the value it had, whatever
`TcpLength()` is; `snd_una` becomes `AcknowledgementNumber`, `rcv_wnd` becomes
`Window`, no other control-block field changes, the reaction is exactly
`Accept` and the state stays `CloseWait`. -/
theorem closewait_keeps_rcv_nxt (m : TcpStateManager) (h : TcpHeader)
    (hs : m.GetState = State.kCloseWait) (hack : IsAck h = true)
    (hr : IsSeqAckInRange h m.block_ = true) :
    m.onHeader h =
        ([SinkCall.Accept],
         { block_ := { m.block_ with snd_una := h.AcknowledgementNumber,
                                     rcv_wnd := h.Window },
           state_ := State.kCloseWait }) ∧
      (m.onHeader h).2.block_.rcv_nxt = m.block_.rcv_nxt := by
  obtain ⟨b, s⟩ := m
  simp only [TcpStateManager.GetState] at hs
  simp only at hr
  subst hs
  have hseq : h.SequenceNumber = b.rcv_nxt :=
    ((IsSeqAckInRange_eq_true_iff h b).mp hr).1
  have hstep : (⟨b, State.kCloseWait⟩ : TcpStateManager).onHeader h =
      ([SinkCall.Accept],
       { block_ := { b with snd_una := h.AcknowledgementNumber, rcv_wnd := h.Window },
         state_ := State.kCloseWait }) := by
    simp only [TcpStateManager.onHeader, TcpState.onHeader, CloseWait.onHeader, hack, hr,
      Bool.and_self, if_true, hseq]
  exact ⟨hstep, by rw [hstep]⟩

/-- C22 at a concrete input: in `CloseWait` with `rcv_nxt = 502`, the segment
`{Ack, Seq = 502, Ack = 30, Window = 4096}` of length 100 is answered `Accept`;
`rcv_nxt` stays 502, `snd_una` becomes 30 and `rcv_wnd` becomes 4096. -/
theorem closewait_keeps_rcv_nxt_witness :
    closeWaitManager.GetState = State.kCloseWait ∧ IsAck lateData = true ∧
      IsSeqAckInRange lateData closeWaitManager.block_ = true ∧
      0 < lateData.TcpLength ∧
      closeWaitManager.onHeader lateData =
        ([SinkCall.Accept],
         { block_ := { snd_seq := 10, snd_una := 30, snd_nxt := 40, snd_wnd := 1024,
                       rcv_nxt := 502, rcv_wnd := 4096, state := State.kCloseWait },
           state_ := State.kCloseWait }) ∧
      (closeWaitManager.onHeader lateData).2.block_.rcv_nxt = 502 :=
  ⟨rfl, rfl, rfl, by decide,
    (closewait_keeps_rcv_nxt closeWaitManager lateData rfl rfl rfl).1,
    (closewait_keeps_rcv_nxt closeWaitManager lateData rfl rfl rfl).2⟩

end tcp_stack
